import Mathlib

/-! gh-ost-orm: the ALTER-fragment builder and the process driver `Execute`.

A shallow embedding of `gh_ost_orm.go`.

* Go `string` is `String`; `+` is `++`, `strings.Join` is `Join` below.  The code
  only concatenates strings and compares them with `""`, so a sequence of characters
  stands for Go's sequence of bytes.
* Go `int` is `Int`; the values are only compared with `0` and printed by
  `strconv.Itoa`, so no machine arithmetic is involved.
* `map[string]string` is an association list with at most one entry per key;
  `m[k] = v` is `FlagMap.set`.  The order in which `range` visits a map is not
  fixed by Go, so `Execute` takes the visiting order as an argument.
* A method on `*orm` is a function of the receiver's state; its result says
  whether the call returned or panicked, the receiver's state at that point,
  and the value returned.
* What `os/exec` answers during a run of `Execute` (the errors of the pipes, of the
  start and of the wait) is an argument of the model; the two goroutines that copy
  the child's output are not represented.
-/

namespace GhOstOrm

/-! ## Go primitives -/

/-- The function `strconv.Itoa`: decimal rendering, with a leading `-` for negatives. -/
def Itoa (n : Int) : String :=
  match n with
  | Int.ofNat m => Nat.repr m
  | Int.negSucc m => "-" ++ Nat.repr (m + 1)

/-- The function `strings.Join`: the elements of `elems` separated by `sep`. -/
def Join (elems : List String) (sep : String) : String :=
  match elems with
  | [] => ""
  | e :: rest => rest.foldl (fun acc s => acc ++ sep ++ s) e

/-- A Go `map[string]string`: association list, one entry per key. -/
abbrev FlagMap := List (String × String)

/-- The map assignment `m[k] = v`: overwrite the entry of `k`, or add one. -/
def FlagMap.set (m : FlagMap) (k v : String) : FlagMap :=
  match m with
  | [] => [(k, v)]
  | (k', v') :: rest =>
    if k' = k then (k, v) :: rest else (k', v') :: FlagMap.set rest k v

/-- The map read `m[k]` in its two-result form. -/
def FlagMap.get? (m : FlagMap) (k : String) : Option String :=
  match m with
  | [] => none
  | (k', v') :: rest => if k' = k then some v' else FlagMap.get? rest k

/-! ## The data model -/

/-- The struct `orm`. -/
structure orm where
  binPath : String
  host : String
  user : String
  password : String
  database : String
  table : String
  flags : FlagMap
  alter : String
deriving DecidableEq, Repr

/-- The type `FlagOption`, a `func(*orm)`: it acts on the state of the `orm`. -/
abbrev FlagOption := orm → orm

/-- The option `WithFlag(pk, pv...)`. -/
def WithFlag (pk : String) (pv : List String) : FlagOption := fun o =>
  match pv with
  | v :: _ => { o with flags := o.flags.set pk v }
  | [] => { o with flags := o.flags.set pk "" }

/-- The option `WithAssumeMasterHostFlag(host)`. -/
def WithAssumeMasterHostFlag (host : String) : FlagOption := fun o =>
  { o with flags := o.flags.set "assume-master-host" host }

/-- The constructor `New`. -/
def New (binPath host user password database table : String)
    (flagOptions : List FlagOption) : orm :=
  flagOptions.foldl (fun o option => option o)
    { binPath := binPath, host := host, user := user, password := password,
      database := database, table := table, flags := [], alter := "" }

/-- How a method call on a `*orm` ends. -/
inductive Outcome where
  /-- The call returned: the receiver's state and the `*orm` returned, if the method has a result. -/
  | returned (recv : orm) (result : Option orm)
  /-- The call panicked with `msg`: the receiver's state at the panic. -/
  | panicked (recv : orm) (msg : String)
deriving DecidableEq, Repr

/-- The receiver's state after the call. -/
def Outcome.recv : Outcome → orm
  | .returned o _ => o
  | .panicked o _ => o

/-- The call panicked. -/
def Outcome.aborted : Outcome → Bool
  | .returned _ _ => false
  | .panicked _ _ => true

/-! ## The builder operations -/

/-- The method `SetEngine`. -/
def SetEngine (o : orm) (engine : String) : Outcome :=
  let o := { o with alter := "engine=" ++ engine }
  .returned o (some o)

/-- The method `AddColumn`. -/
def AddColumn (o : orm) (columnName _type : String) (length decimal : Int)
    (charset : String) (notNULL : Bool) (_default comment : String) : Outcome :=
  let statement : List String := []
  let statement := statement ++ ["ADD COLUMN"]
  let statement := if columnName ≠ "" then statement ++ [columnName] else statement
  let statement :=
    if _type ≠ "" then
      let columnType := _type
      let columnType :=
        if length > 0 ∧ decimal > 0 then
          columnType ++ ("(" ++ Itoa length ++ "," ++ Itoa decimal ++ ")")
        else if length > 0 then
          columnType ++ ("(" ++ Itoa length ++ ")")
        else columnType
      statement ++ [columnType]
    else statement
  let statement := if charset ≠ "" then statement ++ ["CHARACTER " ++ charset] else statement
  let statement := if notNULL then statement ++ ["NOT NULL"] else statement
  let statement := if _default ≠ "" then statement ++ ["DEFAULT " ++ _default] else statement
  let statement := if comment ≠ "" then statement ++ ["COMMENT '" ++ comment ++ "'"] else statement
  let o := { o with alter := Join statement " " }
  .returned o (some o)

/-- The method `ModifyColumn`. -/
def ModifyColumn (o : orm) (columnName _type : String) (length decimal : Int)
    (charset : String) (notNULL : Bool) (_default comment : String) : Outcome :=
  let statement : List String := []
  let statement := statement ++ ["MODIFY COLUMN"]
  let statement := if columnName ≠ "" then statement ++ [columnName] else statement
  let statement :=
    if _type ≠ "" then
      let columnType := _type
      let columnType :=
        if length > 0 ∧ decimal > 0 then
          columnType ++ ("(" ++ Itoa length ++ "," ++ Itoa decimal ++ ")")
        else if length > 0 then
          columnType ++ ("(" ++ Itoa length ++ ")")
        else columnType
      statement ++ [columnType]
    else statement
  let statement := if charset ≠ "" then statement ++ ["CHARACTER " ++ charset] else statement
  let statement := if notNULL then statement ++ ["NOT NULL"] else statement
  let statement := if _default ≠ "" then statement ++ ["DEFAULT " ++ _default] else statement
  let statement := if comment ≠ "" then statement ++ ["COMMENT '" ++ comment ++ "'"] else statement
  let o := { o with alter := Join statement " " }
  .returned o (some o)

/-- The method `RemoveColumn`; it has no result. -/
def RemoveColumn (o : orm) (columnName : String) : Outcome :=
  let o := { o with alter := "DROP COLUMN " ++ columnName }
  .returned o none

/-- The method `AddIndex`. -/
def AddIndex (o : orm) (indexName indexType indexMethod : String)
    (columns : List String) : Outcome :=
  let statement := if indexType ≠ "" then "ADD " ++ indexType else "ADD"
  let statement := statement ++ (" INDEX " ++ indexName)
  if columns.length = 0 then
    .panicked o "add index panic: columns can not be empty"
  else
    let statement := statement ++ ("(" ++ Join columns "," ++ ")")
    let statement := if indexMethod ≠ "" then statement ++ (" USING " ++ indexMethod) else statement
    let o := { o with alter := statement }
    .returned o (some o)

/-- The method `RemoveIndex`. -/
def RemoveIndex (o : orm) (indexName : String) : Outcome :=
  let o := { o with alter := "DROP INDEX " ++ indexName }
  .returned o (some o)

/-! ## The process driver -/

/-- The argument vector `args` that `Execute` hands to `exec.Command`; `visit` is the
sequence of entries in which `range o.flags` yields the map. -/
def ExecuteArgs (o : orm) (visit : List (String × String)) : List String :=
  let args : List String := []
  let args := args ++ ["--host=" ++ o.host]
  let args := args ++ ["--user=" ++ o.user]
  let args := args ++ ["--password=" ++ o.password]
  let args := args ++ ["--database=" ++ o.database]
  let args := args ++ ["--table=" ++ o.table]
  let args := args ++ ["--alter=" ++ o.alter]
  let args := args ++ ["--allow-on-master"]
  let args := args ++ ["--attempt-instant-ddl"]
  let args := args ++ ["--initially-drop-ghost-table"]
  let args := args ++ ["--initially-drop-old-table"]
  let args := visit.foldl
    (fun args kv =>
      if kv.2 = "" then args ++ ["--" ++ kv.1]
      else args ++ ["--" ++ kv.1 ++ "=" ++ kv.2])
    args
  let args := args ++ ["--execute"]
  args

/-- What `os/exec` answers during one run of `Execute`: the error, if any, of
`cmd.StdoutPipe`, `cmd.StderrPipe`, `cmd.Start` and `cmd.Wait`. -/
structure Child where
  stdoutPipe : Option String
  stderrPipe : Option String
  start : Option String
  wait : Option String
deriving DecidableEq, Repr

/-- How a run of `Execute` ends. -/
inductive Ending where
  /-- A `panic(msg)`. -/
  | panicked (msg : String)
  /-- A `log.Fatal(err)`: the error is logged and the process exits. -/
  | fatal (err : String)
  /-- A `return`, with `nil` or the error. -/
  | returned (err : Option String)
deriving DecidableEq, Repr

/-- A run of `Execute`: the command built by `exec.Command`, if that line was reached,
whether `cmd.Start` launched the child, and how the run ended. -/
structure Run where
  command : Option (String × List String)
  launched : Bool
  ending : Ending
deriving DecidableEq, Repr

/-- The method `Execute`. -/
def Execute (o : orm) (visit : List (String × String)) (child : Child) : Run :=
  if o.alter = "" then
    { command := none, launched := false,
      ending := .panicked "alter statement can not be empty" }
  else
    let args := ExecuteArgs o visit
    let cmd := (o.binPath, args)
    match child.stdoutPipe with
    | some err => { command := some cmd, launched := false, ending := .fatal err }
    | none =>
      match child.stderrPipe with
      | some err => { command := some cmd, launched := false, ending := .fatal err }
      | none =>
        match child.start with
        | some err => { command := some cmd, launched := false, ending := .fatal err }
        | none =>
          match child.wait with
          | some err => { command := some cmd, launched := true, ending := .returned (some err) }
          | none => { command := some cmd, launched := true, ending := .returned none }

/-! ## Vocabulary of the statements -/

/-- The string `sub` occurs in `s` as a contiguous run of characters. -/
def Contains (s sub : String) : Prop := sub.data <:+: s.data

instance (s sub : String) : Decidable (Contains s sub) :=
  inferInstanceAs (Decidable (sub.data <:+: s.data))

/-- The sequence `visit` is an order in which `range` can yield the map `m`:
every entry exactly once. -/
def RangeOrder (m : FlagMap) (visit : List (String × String)) : Prop := visit.Perm m

/-- The argument a pass-through flag is rendered as. -/
def renderFlag (kv : String × String) : String :=
  if kv.2 = "" then "--" ++ kv.1 else "--" ++ kv.1 ++ "=" ++ kv.2

/-- The length/decimal suffix of a column type: `(length,decimal)` when both are
positive, `(length)` when only `length` is, nothing otherwise. -/
def lengthSuffix (length decimal : Int) : String :=
  if length > 0 ∧ decimal > 0 then "(" ++ Itoa length ++ "," ++ Itoa decimal ++ ")"
  else if length > 0 then "(" ++ Itoa length ++ ")"
  else ""

/-- The optional clauses of a column fragment, each present when its input is not the
zero value: charset, `NOT NULL`, default, comment. -/
def optionalClauses (charset : String) (notNULL : Bool) (_default comment : String) :
    List String :=
  (if charset ≠ "" then ["CHARACTER " ++ charset] else []) ++
  (if notNULL then ["NOT NULL"] else []) ++
  (if _default ≠ "" then ["DEFAULT " ++ _default] else []) ++
  (if comment ≠ "" then ["COMMENT '" ++ comment ++ "'"] else [])

/-- The token sequence of a column fragment as the specification words it: the keyword,
the column name, the type followed by its suffix, then the optional clauses. -/
def statedColumnTokens (keyword columnName _type : String) (length decimal : Int)
    (charset : String) (notNULL : Bool) (_default comment : String) : List String :=
  [keyword, columnName, _type ++ lengthSuffix length decimal] ++
    optionalClauses charset notNULL _default comment

/-- The token sequence of a column fragment with the name and the type (with its suffix)
present only when non-empty. -/
def columnTokens (keyword columnName _type : String) (length decimal : Int)
    (charset : String) (notNULL : Bool) (_default comment : String) : List String :=
  [keyword] ++
  (if columnName ≠ "" then [columnName] else []) ++
  (if _type ≠ "" then [_type ++ lengthSuffix length decimal] else []) ++
    optionalClauses charset notNULL _default comment

/-- The Spec of the repository's test: `New("./gh-ost", "127.0.0.1", "root", "123456", "test", "test")`. -/
def testSpec : orm := New "./gh-ost" "127.0.0.1" "root" "123456" "test" "test" []

instance (m : FlagMap) (visit : List (String × String)) : Decidable (RangeOrder m visit) :=
  inferInstanceAs (Decidable (visit.Perm m))

/-- The ten arguments every argument vector starts with. -/
def fixedPrefix (o : orm) : List String :=
  ["--host=" ++ o.host, "--user=" ++ o.user, "--password=" ++ o.password,
   "--database=" ++ o.database, "--table=" ++ o.table, "--alter=" ++ o.alter,
   "--allow-on-master", "--attempt-instant-ddl", "--initially-drop-ghost-table",
   "--initially-drop-old-table"]

/-- A flag option a caller can pass to `New`: one built by `WithFlag` or by
`WithAssumeMasterHostFlag`. -/
def IsFlagOption (f : FlagOption) : Prop :=
  (∃ pk pv, f = WithFlag pk pv) ∨ (∃ host, f = WithAssumeMasterHostFlag host)

/-- A call of one of the six builder operations, with its arguments. -/
inductive BuilderOp where
  | setEngine (engine : String)
  | addColumn (columnName _type : String) (length decimal : Int) (charset : String)
      (notNULL : Bool) (_default comment : String)
  | modifyColumn (columnName _type : String) (length decimal : Int) (charset : String)
      (notNULL : Bool) (_default comment : String)
  | removeColumn (columnName : String)
  | addIndex (indexName indexType indexMethod : String) (columns : List String)
  | removeIndex (indexName : String)
deriving DecidableEq, Repr

/-- The call `op` made on the receiver `o`. -/
def BuilderOp.call (op : BuilderOp) (o : orm) : Outcome :=
  match op with
  | .setEngine engine => SetEngine o engine
  | .addColumn columnName _type length decimal charset notNULL _default comment =>
    AddColumn o columnName _type length decimal charset notNULL _default comment
  | .modifyColumn columnName _type length decimal charset notNULL _default comment =>
    ModifyColumn o columnName _type length decimal charset notNULL _default comment
  | .removeColumn columnName => RemoveColumn o columnName
  | .addIndex indexName indexType indexMethod columns =>
    AddIndex o indexName indexType indexMethod columns
  | .removeIndex indexName => RemoveIndex o indexName

/-- The call has the arguments the builder accepts: `AddIndex` has at least one column. -/
def BuilderOp.admissible (op : BuilderOp) : Prop :=
  match op with
  | .addIndex _ _ _ columns => columns ≠ []
  | _ => True

/-- A Spec with two pass-through flags, one of them valueless, and a fragment. -/
def flaggedSpec : orm :=
  (SetEngine
    (New "./gh-ost" "127.0.0.1" "root" "123456" "test" "t1"
      [WithFlag "verbose" [], WithFlag "chunk-size" ["500"]])
    "InnoDB").recv

/-- A child that starts and exits with status 0. -/
def cleanChild : Child := { stdoutPipe := none, stderrPipe := none, start := none, wait := none }

/-- The number of times the character `c` occurs in `s`. -/
def occurrences (c : Char) (s : String) : Nat := s.data.count c

/-- The number of times `c` occurs in the five string arguments of a column builder. -/
def suppliedOccurrences (c : Char) (columnName _type charset _default comment : String) : Nat :=
  occurrences c columnName + occurrences c _type + occurrences c charset +
    occurrences c _default + occurrences c comment

/-- In `l` the character `x` is never directly followed by `y`, and `l` does not end
in `x`. -/
def pairFree (x y : Char) : List Char → Bool
  | [] => true
  | [a] => a != x
  | a :: b :: l => !(a == x && b == y) && pairFree x y (b :: l)

/-- The `*orm` a call returned, if it returned one. -/
def Outcome.result : Outcome → Option orm
  | .returned _ r => r
  | .panicked _ _ => none

/-- The arguments of one flag option: those of `WithFlag` or of
`WithAssumeMasterHostFlag`. -/
inductive FlagSetting where
  | withFlag (pk : String) (pv : List String)
  | withAssumeMasterHostFlag (host : String)
deriving DecidableEq, Repr

/-- The flag option built from the arguments. -/
def FlagSetting.option : FlagSetting → FlagOption
  | .withFlag pk pv => WithFlag pk pv
  | .withAssumeMasterHostFlag host => WithAssumeMasterHostFlag host

/-- The flag name a flag option sets. -/
def FlagSetting.key : FlagSetting → String
  | .withFlag pk _ => pk
  | .withAssumeMasterHostFlag _ => "assume-master-host"

/-- The value a flag option gives its flag: the first value supplied, or the empty string
when none is. -/
def FlagSetting.value : FlagSetting → String
  | .withFlag _ [] => ""
  | .withFlag _ (v :: _) => v
  | .withAssumeMasterHostFlag host => host

/-- The method `Wait` of `exec.Cmd`, as the package `os/exec` documents it for a started
command: `nil` when the child exits with status 0, otherwise the error `exitError` that
describes the exit. -/
def Wait (exitCode : Int) (exitError : String) : Option String :=
  if exitCode = 0 then none else some exitError

/-- The number of places in `s` at which `sub` occurs. -/
def occurrencesOf (sub s : String) : Nat :=
  (s.data.tails.filter fun t => sub.data <+: t).length

/-- The string has no leading space, no trailing space and no two consecutive spaces. -/
def SingleSpaced (s : String) : Prop :=
  ¬ [' '] <+: s.data ∧ ¬ [' '] <:+ s.data ∧ ¬ Contains s "  "

instance (s : String) : Decidable (SingleSpaced s) :=
  inferInstanceAs (Decidable (¬ [' '] <+: s.data ∧ ¬ [' '] <:+ s.data ∧ ¬ Contains s "  "))

/-- A non-empty run of characters with no leading space, no trailing space and no two
consecutive spaces. -/
def Token (l : List Char) : Prop :=
  l ≠ [] ∧ ¬ [' '] <+: l ∧ pairFree ' ' ' ' l = true

/-- The string `s` ends with `w`. -/
def EndsWith (s w : String) : Prop := w.data <:+ s.data

instance (s w : String) : Decidable (EndsWith s w) :=
  inferInstanceAs (Decidable (w.data <:+ s.data))

/-- The run `l` neither contains `T` nor ends with `W`. -/
def Clear (W T l : List Char) : Prop := ¬ T <:+: l ∧ ¬ W <:+ l

instance (W T l : List Char) : Decidable (Clear W T l) :=
  inferInstanceAs (Decidable (¬ T <:+: l ∧ ¬ W <:+ l))

/-- The tokens of a column fragment after its keyword: the column name and the type with
its suffix when non-empty, then the optional clauses. -/
def argumentTokens (columnName _type : String) (length decimal : Int)
    (charset : String) (notNULL : Bool) (_default comment : String) : List String :=
  (if columnName ≠ "" then [columnName] else []) ++
  (if _type ≠ "" then [_type ++ lengthSuffix length decimal] else []) ++
    optionalClauses charset notNULL _default comment

/-- Two neighbours in `l` of which the first ends with `w₁` and the second begins with
`w₂`. -/
def straddles (w₁ w₂ : String) : List String → Bool
  | s :: s' :: rest =>
    (decide (w₁.data <:+ s.data) && decide (w₂.data <+: s'.data)) ||
      straddles w₁ w₂ (s' :: rest)
  | _ => false

/-- The tokens `l`, joined by single spaces, supply the text `w₁ ␣ w₂`: one of them
contains it, or one ends with `w₁` and the next begins with `w₂`. -/
def Supplied (w₁ w₂ : String) (l : List String) : Prop :=
  (∃ s ∈ l, Contains s (w₁ ++ " " ++ w₂)) ∨ straddles w₁ w₂ l = true

instance (w₁ w₂ : String) (l : List String) : Decidable (Supplied w₁ w₂ l) :=
  inferInstanceAs (Decidable ((∃ s ∈ l, Contains s (w₁ ++ " " ++ w₂)) ∨ straddles w₁ w₂ l = true))

/-- The string `s` begins with `w`. -/
def StartsWith (s w : String) : Prop := w.data <+: s.data

instance (s w : String) : Decidable (StartsWith s w) :=
  inferInstanceAs (Decidable (w.data <+: s.data))

/-! ## Lemmas on the Go primitives -/

theorem foldl_join_append (sep : String) (l : List String) (x y : String) :
    l.foldl (fun acc s => acc ++ sep ++ s) (x ++ y)
      = x ++ l.foldl (fun acc s => acc ++ sep ++ s) y := by
  induction l generalizing y with
  | nil => rfl
  | cons a l ih =>
    simp only [List.foldl_cons]
    rw [String.append_assoc x y sep, String.append_assoc x (y ++ sep) a, ih]

theorem Join_singleton (a sep : String) : Join [a] sep = a := rfl

theorem Join_cons_cons (a b : String) (l : List String) (sep : String) :
    Join (a :: b :: l) sep = a ++ (sep ++ Join (b :: l) sep) := by
  simp only [Join, List.foldl_cons]
  rw [String.append_assoc, foldl_join_append, foldl_join_append]

/-- The model of `strings.Join` is the library's `String.intercalate`. -/
theorem Join_eq_intercalate (l : List String) (sep : String) :
    Join l sep = sep.intercalate l := by
  cases l with
  | nil => rfl
  | cons a l =>
    simp only [Join, String.intercalate]
    induction l generalizing a with
    | nil => rfl
    | cons b l ih => simpa [String.intercalate.go] using ih (a ++ sep ++ b)

theorem type_suffix_eq (_type : String) (length decimal : Int) :
    (if length > 0 ∧ decimal > 0 then
        _type ++ ("(" ++ Itoa length ++ "," ++ Itoa decimal ++ ")")
      else if length > 0 then _type ++ ("(" ++ Itoa length ++ ")")
      else _type) = _type ++ lengthSuffix length decimal := by
  unfold lengthSuffix
  split
  · rfl
  · split
    · rfl
    · exact (String.append_empty _).symm

theorem AddColumn_alter (o : orm) (columnName _type : String) (length decimal : Int)
    (charset : String) (notNULL : Bool) (_default comment : String) :
    (AddColumn o columnName _type length decimal charset notNULL _default comment).recv.alter
      = Join (columnTokens "ADD COLUMN" columnName _type length decimal charset notNULL
          _default comment) " " := by
  simp only [AddColumn, Outcome.recv, columnTokens, optionalClauses, type_suffix_eq]
  by_cases h1 : columnName = "" <;> by_cases h2 : _type = "" <;>
    by_cases h3 : charset = "" <;> cases notNULL <;>
    by_cases h5 : _default = "" <;> by_cases h6 : comment = "" <;>
    simp [h1, h2, h3, h5, h6]

theorem ModifyColumn_alter (o : orm) (columnName _type : String) (length decimal : Int)
    (charset : String) (notNULL : Bool) (_default comment : String) :
    (ModifyColumn o columnName _type length decimal charset notNULL _default comment).recv.alter
      = Join (columnTokens "MODIFY COLUMN" columnName _type length decimal charset notNULL
          _default comment) " " := by
  simp only [ModifyColumn, Outcome.recv, columnTokens, optionalClauses, type_suffix_eq]
  by_cases h1 : columnName = "" <;> by_cases h2 : _type = "" <;>
    by_cases h3 : charset = "" <;> cases notNULL <;>
    by_cases h5 : _default = "" <;> by_cases h6 : comment = "" <;>
    simp [h1, h2, h3, h5, h6]

theorem Join_cons_rest (l : List String) (sep : String) :
    ∃ rest, ∀ a, Join (a :: l) sep = a ++ rest := by
  cases l with
  | nil => exact ⟨"", fun a => (String.append_empty a).symm⟩
  | cons b l => exact ⟨sep ++ Join (b :: l) sep, fun a => Join_cons_cons a b l sep⟩

/-! ## The column builders -/

/-- C1, as stated, fails: with an empty type and `length = 10` the claim's token sequence
holds the token `(10)`, the fragment `AddColumn` stores does not. -/
theorem AddColumn_stated_tokens_refuted :
    (AddColumn testSpec "c1" "" 10 0 "" false "" "").recv.alter = "ADD COLUMN c1" ∧
    " ".intercalate (statedColumnTokens "ADD COLUMN" "c1" "" 10 0 "" false "" "")
      = "ADD COLUMN c1 (10)" ∧
    (AddColumn testSpec "c1" "" 10 0 "" false "" "").recv.alter
      ≠ " ".intercalate (statedColumnTokens "ADD COLUMN" "c1" "" 10 0 "" false "" "") := by
  decide

/-- C1, amended: `AddColumn` sets `alter` to the single-space join of, in this order,
`ADD COLUMN`; the column name when it is non-empty; when the type is non-empty, the type
followed by its length/decimal suffix; `CHARACTER ` and the charset when that is
non-empty; `NOT NULL` when `notNULL`; `DEFAULT ` and the default when that is non-empty;
the quoted comment after `COMMENT ` when that is non-empty.  The inputs of the
repository's test give the fragment the specification lists. -/
theorem AddColumn_fragment (o : orm) (columnName _type : String) (length decimal : Int)
    (charset : String) (notNULL : Bool) (_default comment : String) :
    (AddColumn o columnName _type length decimal charset notNULL _default comment).recv.alter
      = " ".intercalate
          (["ADD COLUMN"] ++
           (if columnName ≠ "" then [columnName] else []) ++
           (if _type ≠ "" then
              [_type ++
                (if length > 0 ∧ decimal > 0 then
                  "(" ++ Itoa length ++ "," ++ Itoa decimal ++ ")"
                 else if length > 0 then "(" ++ Itoa length ++ ")"
                 else "")]
            else []) ++
           (if charset ≠ "" then ["CHARACTER " ++ charset] else []) ++
           (if notNULL then ["NOT NULL"] else []) ++
           (if _default ≠ "" then ["DEFAULT " ++ _default] else []) ++
           (if comment ≠ "" then ["COMMENT '" ++ comment ++ "'"] else [])) ∧
    (AddColumn o "c1" "varchar" 10 0 "" true "'a'" "test").recv.alter
      = "ADD COLUMN c1 varchar(10) NOT NULL DEFAULT 'a' COMMENT 'test'" := by
  constructor
  · rw [AddColumn_alter, Join_eq_intercalate]
    simp only [columnTokens, optionalClauses, lengthSuffix, List.append_assoc]
  · rw [AddColumn_alter]; decide

/-- C2: on every input `ModifyColumn` stores the fragment `AddColumn` stores, with the
leading `ADD COLUMN` replaced by `MODIFY COLUMN`: both are their keyword followed by one
and the same rest.  The inputs of the repository's test give the fragment the
specification lists. -/
theorem ModifyColumn_is_AddColumn_with_keyword (o : orm) (columnName _type : String)
    (length decimal : Int) (charset : String) (notNULL : Bool) (_default comment : String) :
    (∃ rest : String,
      (AddColumn o columnName _type length decimal charset notNULL _default comment).recv.alter
        = "ADD COLUMN" ++ rest ∧
      (ModifyColumn o columnName _type length decimal charset notNULL _default comment).recv.alter
        = "MODIFY COLUMN" ++ rest) ∧
    (ModifyColumn o "c1" "decimal" 10 3 "" true "0.00" "test").recv.alter
      = "MODIFY COLUMN c1 decimal(10,3) NOT NULL DEFAULT 0.00 COMMENT 'test'" := by
  constructor
  · obtain ⟨rest, h⟩ := Join_cons_rest
      ((if columnName ≠ "" then [columnName] else []) ++
        (if _type ≠ "" then [_type ++ lengthSuffix length decimal] else []) ++
        optionalClauses charset notNULL _default comment) " "
    refine ⟨rest, ?_, ?_⟩
    · rw [AddColumn_alter, ← h]
      simp only [columnTokens, List.append_assoc, List.singleton_append, List.cons_append, List.nil_append]
    · rw [ModifyColumn_alter, ← h]
      simp only [columnTokens, List.append_assoc, List.singleton_append, List.cons_append, List.nil_append]
  · rw [ModifyColumn_alter]; decide

/-! ## The index builder -/

/-- C3: with a non-empty column list `AddIndex` returns, and stores `ADD INDEX ` and the
index name (empty index type) or `ADD `, the index type, ` INDEX ` and the index name,
then the columns joined by `,` between parentheses, then ` USING ` and the index method
exactly when the method is non-empty. -/
theorem AddIndex_fragment (o : orm) (indexName indexType indexMethod : String)
    (columns : List String) (h : columns ≠ []) :
    (AddIndex o indexName indexType indexMethod columns).aborted = false ∧
    (AddIndex o indexName indexType indexMethod columns).recv.alter
      = (if indexType = "" then "ADD INDEX " ++ indexName
          else "ADD " ++ indexType ++ " INDEX " ++ indexName)
        ++ ("(" ++ ",".intercalate columns ++ ")")
        ++ (if indexMethod ≠ "" then " USING " ++ indexMethod else "") := by
  have hlen : ¬ columns.length = 0 := by
    cases columns with
    | nil => exact absurd rfl h
    | cons a l => simp
  simp only [AddIndex, hlen, if_false, Outcome.aborted, Outcome.recv, Join_eq_intercalate,
    true_and]
  by_cases ht : indexType = "" <;> by_cases hm : indexMethod = "" <;>
    simp [ht, hm, String.append_assoc] <;>
    (rw [← String.append_assoc]; rfl)

/-- C3 at the inputs of the repository's test. -/
theorem AddIndex_fragment_witness :
    ["c1"] ≠ [] ∧
    (AddIndex testSpec "idx_c1" "UNIQUE" "BTREE" ["c1"]).recv.alter
      = "ADD UNIQUE INDEX idx_c1(c1) USING BTREE" :=
  ⟨by decide, (AddIndex_fragment testSpec "idx_c1" "UNIQUE" "BTREE" ["c1"] (by decide)).2.trans
    (by decide)⟩

/-! ## The argument vector -/

theorem foldl_flags (visit : List (String × String)) (init : List String) :
    visit.foldl
      (fun args kv =>
        if kv.2 = "" then args ++ ["--" ++ kv.1]
        else args ++ ["--" ++ kv.1 ++ "=" ++ kv.2]) init
      = init ++ visit.map renderFlag := by
  induction visit generalizing init with
  | nil => simp
  | cons kv visit ih =>
    simp only [List.foldl_cons, List.map_cons]
    rw [ih]
    by_cases hv : kv.2 = "" <;> simp [renderFlag, hv]

theorem ExecuteArgs_eq (o : orm) (visit : List (String × String)) :
    ExecuteArgs o visit = fixedPrefix o ++ (visit.map renderFlag ++ ["--execute"]) := by
  simp only [ExecuteArgs, foldl_flags, fixedPrefix]
  simp

theorem Execute_command (o : orm) (visit : List (String × String)) (child : Child)
    (h : o.alter ≠ "") :
    (Execute o visit child).command = some (o.binPath, ExecuteArgs o visit) := by
  unfold Execute
  rw [if_neg h]
  rcases child with ⟨_ | a, _ | b, _ | c, _ | d⟩ <;> rfl

/-- C4: when `alter` is non-empty, `Execute` builds a command whose argument vector
starts with the ten fixed arguments in their order, ends with `--execute`, and has 11
arguments plus one per pass-through flag. -/
theorem Execute_args_prefix_and_last (o : orm) (visit : List (String × String))
    (child : Child) (h : o.alter ≠ "") (hv : RangeOrder o.flags visit) :
    ∃ args, (Execute o visit child).command = some (o.binPath, args) ∧
      args.take 10 =
        ["--host=" ++ o.host, "--user=" ++ o.user, "--password=" ++ o.password,
         "--database=" ++ o.database, "--table=" ++ o.table, "--alter=" ++ o.alter,
         "--allow-on-master", "--attempt-instant-ddl", "--initially-drop-ghost-table",
         "--initially-drop-old-table"] ∧
      args.getLast? = some "--execute" ∧
      args.length = 11 + o.flags.length := by
  refine ⟨ExecuteArgs o visit, Execute_command o visit child h, ?_, ?_, ?_⟩
  · rw [ExecuteArgs_eq]; rfl
  · rw [ExecuteArgs_eq, ← List.append_assoc, List.getLast?_append]
    rfl
  · rw [ExecuteArgs_eq]
    have hl : visit.length = o.flags.length := List.Perm.length_eq hv
    simp [fixedPrefix, hl]
    omega

/-- C4 on a Spec with two flags, visited in the order opposite to their insertion. -/
theorem Execute_args_prefix_and_last_witness :
    flaggedSpec.alter ≠ "" ∧
    RangeOrder flaggedSpec.flags [("chunk-size", "500"), ("verbose", "")] ∧
    (Execute flaggedSpec [("chunk-size", "500"), ("verbose", "")] cleanChild).command
      = some ("./gh-ost",
          ["--host=127.0.0.1", "--user=root", "--password=123456", "--database=test",
           "--table=t1", "--alter=engine=InnoDB", "--allow-on-master",
           "--attempt-instant-ddl", "--initially-drop-ghost-table",
           "--initially-drop-old-table", "--chunk-size=500", "--verbose", "--execute"]) ∧
    ∃ args, (Execute flaggedSpec [("chunk-size", "500"), ("verbose", "")] cleanChild).command
        = some (flaggedSpec.binPath, args) ∧
      args.take 10 =
        ["--host=" ++ flaggedSpec.host, "--user=" ++ flaggedSpec.user,
         "--password=" ++ flaggedSpec.password, "--database=" ++ flaggedSpec.database,
         "--table=" ++ flaggedSpec.table, "--alter=" ++ flaggedSpec.alter,
         "--allow-on-master", "--attempt-instant-ddl", "--initially-drop-ghost-table",
         "--initially-drop-old-table"] ∧
      args.getLast? = some "--execute" ∧
      args.length = 11 + flaggedSpec.flags.length :=
  ⟨by decide, by decide, by decide,
    Execute_args_prefix_and_last flaggedSpec [("chunk-size", "500"), ("verbose", "")]
      cleanChild (by decide) (by decide)⟩

/-- C5: when `alter` is non-empty, the arguments between the ten fixed ones and the final
`--execute` are a permutation of the rendered flags, one argument per entry of the map:
`--key` for an empty value, `--key=value` otherwise. -/
theorem Execute_flag_args_perm (o : orm) (visit : List (String × String))
    (child : Child) (h : o.alter ≠ "") (hv : RangeOrder o.flags visit) :
    ∃ args, (Execute o visit child).command = some (o.binPath, args) ∧
      ((args.drop 10).dropLast).Perm
        (o.flags.map fun kv =>
          if kv.2 = "" then "--" ++ kv.1 else "--" ++ kv.1 ++ "=" ++ kv.2) ∧
      ((args.drop 10).dropLast).length = (o.flags.map Prod.fst).length := by
  have hmid : ((ExecuteArgs o visit).drop 10).dropLast = visit.map renderFlag := by
    rw [ExecuteArgs_eq]
    have : (fixedPrefix o).length = 10 := rfl
    rw [← this, List.drop_left, List.dropLast_concat]
  refine ⟨ExecuteArgs o visit, Execute_command o visit child h, ?_, ?_⟩
  · rw [hmid]
    exact List.Perm.map renderFlag hv
  · rw [hmid]
    simp [List.Perm.length_eq hv]

/-- C5 on a Spec with two flags, visited in the order opposite to their insertion. -/
theorem Execute_flag_args_perm_witness :
    flaggedSpec.alter ≠ "" ∧
    RangeOrder flaggedSpec.flags [("chunk-size", "500"), ("verbose", "")] ∧
    flaggedSpec.flags = [("verbose", ""), ("chunk-size", "500")] ∧
    ∃ args, (Execute flaggedSpec [("chunk-size", "500"), ("verbose", "")] cleanChild).command
        = some (flaggedSpec.binPath, args) ∧
      ((args.drop 10).dropLast).Perm
        (flaggedSpec.flags.map fun kv =>
          if kv.2 = "" then "--" ++ kv.1 else "--" ++ kv.1 ++ "=" ++ kv.2) ∧
      ((args.drop 10).dropLast).length = (flaggedSpec.flags.map Prod.fst).length :=
  ⟨by decide, by decide, by decide,
    Execute_flag_args_perm flaggedSpec [("chunk-size", "500"), ("verbose", "")]
      cleanChild (by decide) (by decide)⟩

/-! ## Replacement of the fragment -/

theorem BuilderOp.call_recv (op : BuilderOp) (h : op.admissible) :
    ∃ fragment, ∀ o : orm,
      (op.call o).aborted = false ∧ (op.call o).recv = { o with alter := fragment } := by
  cases op with
  | setEngine engine => exact ⟨_, fun o => ⟨rfl, rfl⟩⟩
  | addColumn columnName _type length decimal charset notNULL _default comment =>
    exact ⟨_, fun o => ⟨rfl, rfl⟩⟩
  | modifyColumn columnName _type length decimal charset notNULL _default comment =>
    exact ⟨_, fun o => ⟨rfl, rfl⟩⟩
  | removeColumn columnName => exact ⟨_, fun o => ⟨rfl, rfl⟩⟩
  | removeIndex indexName => exact ⟨_, fun o => ⟨rfl, rfl⟩⟩
  | addIndex indexName indexType indexMethod columns =>
    cases columns with
    | nil => exact absurd rfl h
    | cons c columns => exact ⟨_, fun o => ⟨rfl, rfl⟩⟩

/-- C6: for builder calls `f` and `g` (an `AddIndex` with at least one column), `f` then
`g` leaves the Spec that `g` alone leaves; the fragment stored by `g` is the same from
every starting Spec; and neither call changes a field other than `alter`. -/
theorem builder_replaces_alter (s s' : orm) (f g : BuilderOp)
    (hf : f.admissible) (hg : g.admissible) :
    (g.call (f.call s).recv).recv = (g.call s).recv ∧
    (g.call (f.call s).recv).recv.alter = (g.call s').recv.alter ∧
    { (f.call s).recv with alter := s.alter } = s ∧
    { (g.call s).recv with alter := s.alter } = s ∧
    { (g.call (f.call s).recv).recv with alter := s.alter } = s := by
  obtain ⟨ff, hff⟩ := BuilderOp.call_recv f hf
  obtain ⟨gf, hgf⟩ := BuilderOp.call_recv g hg
  simp only [(hff _).2, (hgf _).2, and_self]

/-- C6 on the test's Spec: `AddIndex` then `RemoveIndex`. -/
theorem builder_replaces_alter_witness :
    (BuilderOp.addIndex "idx_c1" "UNIQUE" "BTREE" ["c1"]).admissible ∧
    (BuilderOp.removeIndex "idx_c1").admissible ∧
    ((BuilderOp.removeIndex "idx_c1").call
        ((BuilderOp.addIndex "idx_c1" "UNIQUE" "BTREE" ["c1"]).call testSpec).recv).recv
      = { testSpec with alter := "DROP INDEX idx_c1" } ∧
    ((BuilderOp.removeIndex "idx_c1").call
        ((BuilderOp.addIndex "idx_c1" "UNIQUE" "BTREE" ["c1"]).call testSpec).recv).recv
      = ((BuilderOp.removeIndex "idx_c1").call testSpec).recv :=
  ⟨List.cons_ne_nil _ _, trivial, by decide,
    (builder_replaces_alter testSpec testSpec (.addIndex "idx_c1" "UNIQUE" "BTREE" ["c1"])
      (.removeIndex "idx_c1") (List.cons_ne_nil _ _) trivial).1⟩

/-! ## The two aborts -/

/-- C7: `AddIndex` panics exactly when its column list is empty, and then the Spec is what
it was before the call: the panic comes before the assignment to `alter`. -/
theorem AddIndex_aborts_iff (o : orm) (indexName indexType indexMethod : String)
    (columns : List String) :
    ((AddIndex o indexName indexType indexMethod columns).aborted = true ↔ columns = []) ∧
    ((AddIndex o indexName indexType indexMethod columns).aborted = true →
      (AddIndex o indexName indexType indexMethod columns).recv = o) ∧
    AddIndex o indexName indexType indexMethod []
      = .panicked o "add index panic: columns can not be empty" := by
  cases columns with
  | nil => exact ⟨⟨fun _ => rfl, fun _ => rfl⟩, fun _ => rfl, rfl⟩
  | cons c columns =>
    refine ⟨⟨fun h => ?_, fun h => ?_⟩, fun h => ?_, rfl⟩
    · exact absurd h (by simp [AddIndex, Outcome.aborted])
    · exact absurd h (List.cons_ne_nil _ _)
    · exact absurd h (by simp [AddIndex, Outcome.aborted])

theorem foldl_options_alter (flagOptions : List FlagOption)
    (h : ∀ f ∈ flagOptions, IsFlagOption f) (o : orm) :
    (flagOptions.foldl (fun o option => option o) o).alter = o.alter := by
  induction flagOptions generalizing o with
  | nil => rfl
  | cons f rest ih =>
    simp only [List.foldl_cons]
    rw [ih (fun g hg => h g (List.mem_cons_of_mem _ hg))]
    rcases h f (List.mem_cons_self _ _) with ⟨pk, pv, rfl⟩ | ⟨host, rfl⟩
    · cases pv <;> rfl
    · rfl

/-- C8: `Execute` panics exactly when `alter` is empty; it then has built no command and
launched no child; and it panics on every Spec fresh from `New`, whatever the coordinates
and the flag options. -/
theorem Execute_panics_iff (o : orm) (visit : List (String × String)) (child : Child) :
    ((∃ msg, (Execute o visit child).ending = .panicked msg) ↔ o.alter = "") ∧
    (o.alter = "" →
      Execute o visit child =
        { command := none, launched := false,
          ending := .panicked "alter statement can not be empty" }) ∧
    (∀ (binPath host user password database table : String)
        (flagOptions : List FlagOption), (∀ f ∈ flagOptions, IsFlagOption f) →
      (Execute (New binPath host user password database table flagOptions) visit child).ending
        = .panicked "alter statement can not be empty") := by
  refine ⟨⟨fun h => ?_, fun h => ⟨"alter statement can not be empty", by simp [Execute, h]⟩⟩,
    fun h => by simp [Execute, h],
    fun binPath host user password database table flagOptions hopt => ?_⟩
  · by_contra hne
    obtain ⟨msg, hmsg⟩ := h
    unfold Execute at hmsg
    rw [if_neg hne] at hmsg
    rcases child with ⟨_ | a, _ | b, _ | c, _ | d⟩ <;> simp at hmsg
  · have : (New binPath host user password database table flagOptions).alter = "" :=
      foldl_options_alter flagOptions hopt _
    simp [Execute, this]

/-- C8 on a Spec fresh from `New` with both kinds of flag option. -/
theorem Execute_panics_iff_witness :
    (Execute
      (New "./gh-ost" "127.0.0.1" "root" "123456" "test" "test"
        [WithFlag "verbose" [], WithAssumeMasterHostFlag "db1"])
      [("verbose", ""), ("assume-master-host", "db1")] cleanChild).ending
      = .panicked "alter statement can not be empty" :=
  (Execute_panics_iff testSpec [("verbose", ""), ("assume-master-host", "db1")] cleanChild).2.2
    "./gh-ost" "127.0.0.1" "root" "123456" "test" "test"
    [WithFlag "verbose" [], WithAssumeMasterHostFlag "db1"]
    (by
      intro f hf
      simp only [List.mem_cons, List.mem_singleton, List.not_mem_nil, or_false] at hf
      rcases hf with rfl | rfl
      · exact Or.inl ⟨_, _, rfl⟩
      · exact Or.inr ⟨_, rfl⟩)

/-! ## Characters of the fragment -/

theorem digitChar_mem : ∀ d, d < 10 → Nat.digitChar d ∈ "0123456789".data := by decide

theorem toDigitsCore_mem (fuel : Nat) : ∀ (n : Nat) (ds : List Char),
    (∀ c ∈ ds, c ∈ "0123456789".data) →
    ∀ c ∈ Nat.toDigitsCore 10 fuel n ds, c ∈ "0123456789".data := by
  induction fuel with
  | zero => intro n ds h; simpa [Nat.toDigitsCore] using h
  | succ fuel ih =>
    intro n ds h
    have hd : Nat.digitChar (n % 10) ∈ "0123456789".data :=
      digitChar_mem _ (Nat.mod_lt _ (by decide))
    have hcons : ∀ c ∈ Nat.digitChar (n % 10) :: ds, c ∈ "0123456789".data := by
      intro c hc
      rcases List.mem_cons.1 hc with rfl | hc
      · exact hd
      · exact h c hc
    unfold Nat.toDigitsCore
    simp only
    split
    · exact hcons
    · exact ih _ _ hcons

theorem repr_mem (n : Nat) : ∀ c ∈ (Nat.repr n).data, c ∈ "0123456789".data := by
  unfold Nat.repr Nat.toDigits
  exact toDigitsCore_mem _ _ _ (by simp)

/-- The output of `strconv.Itoa` consists of decimal digits and `-`. -/
theorem Itoa_mem (n : Int) : ∀ c ∈ (Itoa n).data, c ∈ "-0123456789".data := by
  intro c hc
  cases n with
  | ofNat m =>
    have := repr_mem m c hc
    simp only [List.mem_cons] at this ⊢
    tauto
  | negSucc m =>
    simp only [Itoa, String.data_append, List.mem_append] at hc
    rcases hc with hc | hc
    · simp at hc; simp [hc]
    · have := repr_mem _ c hc
      simp only [List.mem_cons] at this ⊢
      tauto

theorem not_mem_Itoa (c : Char) (hc : c ∉ "-0123456789".data) (n : Int) :
    c ∉ (Itoa n).data := fun h => hc (Itoa_mem n c h)

theorem occurrences_append (c : Char) (s t : String) :
    occurrences c (s ++ t) = occurrences c s + occurrences c t := by
  simp [occurrences, String.data_append, List.count_append]

theorem occurrences_empty (c : Char) : occurrences c "" = 0 := rfl

theorem occurrences_Itoa (c : Char) (hc : c ∉ "-0123456789".data) (n : Int) :
    occurrences c (Itoa n) = 0 :=
  List.count_eq_zero.2 (not_mem_Itoa c hc n)

theorem occurrences_Join (c : Char) (sep : String) (hsep : occurrences c sep = 0)
    (l : List String) :
    occurrences c (Join l sep) = (l.map (occurrences c)).sum := by
  induction l with
  | nil => rfl
  | cons a l ih =>
    cases l with
    | nil => simp [Join_singleton]
    | cons b l =>
      rw [Join_cons_cons, occurrences_append, occurrences_append, hsep, ih]
      simp

theorem occurrences_lengthSuffix_open (length decimal : Int) :
    occurrences '(' (lengthSuffix length decimal) = if length > 0 then 1 else 0 := by
  have h : occurrences '(' "(" = 1 ∧ occurrences '(' "," = 0 ∧ occurrences '(' ")" = 0 := by
    decide
  have hi := occurrences_Itoa '(' (by decide)
  unfold lengthSuffix
  by_cases hl : length > 0 <;> by_cases hd : decimal > 0 <;>
    simp [hl, hd, occurrences_append, h, hi, occurrences_empty]

theorem occurrences_lengthSuffix_close (length decimal : Int) :
    occurrences ')' (lengthSuffix length decimal) = if length > 0 then 1 else 0 := by
  have h : occurrences ')' "(" = 0 ∧ occurrences ')' "," = 0 ∧ occurrences ')' ")" = 1 := by
    decide
  have hi := occurrences_Itoa ')' (by decide)
  unfold lengthSuffix
  by_cases hl : length > 0 <;> by_cases hd : decimal > 0 <;>
    simp [hl, hd, occurrences_append, h, hi, occurrences_empty]

theorem occurrences_lengthSuffix_comma (length decimal : Int) :
    occurrences ',' (lengthSuffix length decimal)
      = if length > 0 ∧ decimal > 0 then 1 else 0 := by
  have h : occurrences ',' "(" = 0 ∧ occurrences ',' "," = 1 ∧ occurrences ',' ")" = 0 := by
    decide
  have hi := occurrences_Itoa ',' (by decide)
  unfold lengthSuffix
  by_cases hl : length > 0 <;> by_cases hd : decimal > 0 <;>
    simp [hl, hd, occurrences_append, h, hi, occurrences_empty]

/-- A character that occurs in no keyword occurs in a column fragment as often as in the
string arguments, plus its occurrences in the suffix of a non-empty type. -/
theorem occurrences_columnTokens (c : Char) (keyword : String)
    (hk : occurrences c keyword = 0)
    (hc : occurrences c " " = 0 ∧ occurrences c "CHARACTER " = 0 ∧
      occurrences c "NOT NULL" = 0 ∧ occurrences c "DEFAULT " = 0 ∧
      occurrences c "COMMENT '" = 0 ∧ occurrences c "'" = 0)
    (columnName _type : String) (length decimal : Int)
    (charset : String) (notNULL : Bool) (_default comment : String) :
    occurrences c
        (Join (columnTokens keyword columnName _type length decimal charset notNULL
          _default comment) " ")
      = suppliedOccurrences c columnName _type charset _default comment +
          (if _type ≠ "" then occurrences c (lengthSuffix length decimal) else 0) := by
  obtain ⟨h1, h2, h3, h4, h5, h6⟩ := hc
  rw [occurrences_Join c " " h1]
  unfold columnTokens optionalClauses suppliedOccurrences
  by_cases e1 : columnName = "" <;> by_cases e2 : _type = "" <;>
    by_cases e3 : charset = "" <;> cases notNULL <;>
    by_cases e5 : _default = "" <;> by_cases e6 : comment = "" <;>
    simp [e1, e2, e3, e5, e6, occurrences_append, occurrences_empty, hk, h2, h3, h4, h5, h6] <;>
    omega

/-! ## Substrings of the fragment -/

theorem Contains.refl (s : String) : Contains s s := List.infix_refl _

theorem Contains.trans {s t u : String} (h₁ : Contains s t) (h₂ : Contains t u) :
    Contains s u := List.IsInfix.trans h₂ h₁

theorem Contains.append_left {s t : String} (u : String) (h : Contains s t) :
    Contains (u ++ s) t := by
  obtain ⟨a, b, hab⟩ := h
  refine ⟨u.data ++ a, b, ?_⟩
  simp [String.data_append, ← hab]

theorem Contains.append_right {s t : String} (u : String) (h : Contains s t) :
    Contains (s ++ u) t := by
  obtain ⟨a, b, hab⟩ := h
  refine ⟨a, b ++ u.data, ?_⟩
  simp [String.data_append, ← hab]

/-- Every element of a joined list occurs in the result. -/
theorem Contains_Join_of_mem (sep : String) (l : List String) (s : String) (h : s ∈ l) :
    Contains (Join l sep) s := by
  induction l with
  | nil => exact absurd h (List.not_mem_nil _)
  | cons a l ih =>
    cases l with
    | nil =>
      rcases List.mem_cons.1 h with rfl | h
      · exact Contains.refl _
      · exact absurd h (List.not_mem_nil _)
    | cons b l =>
      rw [Join_cons_cons]
      rcases List.mem_cons.1 h with rfl | h
      · exact Contains.append_right _ (Contains.refl _)
      · exact Contains.append_left _ (Contains.append_left _ (ih h))

theorem pairFree_of_not_mem (x y : Char) (l : List Char) (h : x ∉ l) :
    pairFree x y l = true := by
  induction l with
  | nil => rfl
  | cons a l ih =>
    have ha : a ≠ x := fun e => h (e ▸ List.mem_cons_self _ _)
    have hl : x ∉ l := fun e => h (List.mem_cons_of_mem _ e)
    cases l with
    | nil => simp [pairFree, ha]
    | cons b l => simp [pairFree, ha, ih hl]

theorem pairFree_append (x y : Char) (l₁ l₂ : List Char)
    (h₁ : pairFree x y l₁ = true) (h₂ : pairFree x y l₂ = true) :
    pairFree x y (l₁ ++ l₂) = true := by
  induction l₁ with
  | nil => simpa using h₂
  | cons a l₁ ih =>
    cases l₁ with
    | nil =>
      have ha : a ≠ x := by simpa [pairFree] using h₁
      cases l₂ with
      | nil => simp [pairFree, ha]
      | cons b l₂ => simp [pairFree, ha, h₂]
    | cons b l₁ =>
      simp only [pairFree, Bool.and_eq_true] at h₁
      have := ih h₁.2
      simp only [List.cons_append] at this ⊢
      simp only [pairFree, Bool.and_eq_true]
      exact ⟨h₁.1, this⟩

theorem pairFree_tail (x y a : Char) (l : List Char) (h : pairFree x y (a :: l) = true) :
    pairFree x y l = true := by
  cases l with
  | nil => rfl
  | cons b l =>
    simp only [pairFree, Bool.and_eq_true] at h
    exact h.2

theorem pairFree_not_infix (x y : Char) (l : List Char) (h : pairFree x y l = true) :
    ¬ [x, y] <:+: l := by
  rintro ⟨s, t, rfl⟩
  induction s with
  | nil => simp [pairFree] at h
  | cons a s ih => exact ih (pairFree_tail x y a _ (by simpa using h))

theorem not_mem_lengthSuffix (x : Char) (hx : x ∉ "-0123456789(),".data)
    (length decimal : Int) : x ∉ (lengthSuffix length decimal).data := by
  have hx' : x ∉ "-0123456789".data := by
    simp only [List.mem_cons, not_or] at hx ⊢
    tauto
  have hi := fun n => not_mem_Itoa x hx' n
  have hp : x ≠ '(' ∧ x ≠ ')' ∧ x ≠ ',' := by
    simp only [List.mem_cons, not_or] at hx
    tauto
  unfold lengthSuffix
  by_cases hl : length > 0 <;> by_cases hd : decimal > 0 <;>
    simp [hl, hd, String.data_append, hi, hp]

theorem column_suffix_of_tokens (keyword : String)
    (hkw : keyword = "ADD COLUMN" ∨ keyword = "MODIFY COLUMN")
    (columnName _type : String) (length decimal : Int)
    (charset : String) (notNULL : Bool) (_default comment : String) :
    occurrences '('
        (Join (columnTokens keyword columnName _type length decimal charset notNULL
          _default comment) " ")
      = suppliedOccurrences '(' columnName _type charset _default comment +
          (if _type ≠ "" ∧ length > 0 then 1 else 0) ∧
    occurrences ')'
        (Join (columnTokens keyword columnName _type length decimal charset notNULL
          _default comment) " ")
      = suppliedOccurrences ')' columnName _type charset _default comment +
          (if _type ≠ "" ∧ length > 0 then 1 else 0) ∧
    occurrences ','
        (Join (columnTokens keyword columnName _type length decimal charset notNULL
          _default comment) " ")
      = suppliedOccurrences ',' columnName _type charset _default comment +
          (if _type ≠ "" ∧ length > 0 ∧ decimal > 0 then 1 else 0) ∧
    (_type ≠ "" →
      Contains (Join (columnTokens keyword columnName _type length decimal charset notNULL
        _default comment) " ") (_type ++ lengthSuffix length decimal)) := by
  have hk : ∀ c, c = '(' ∨ c = ')' ∨ c = ',' → occurrences c keyword = 0 := by
    rintro c (rfl | rfl | rfl) <;> rcases hkw with rfl | rfl <;> decide
  refine ⟨?_, ?_, ?_, fun h => ?_⟩
  · rw [occurrences_columnTokens '(' keyword (hk _ (by simp)) (by decide),
      occurrences_lengthSuffix_open]
    by_cases h1 : _type = "" <;> by_cases h2 : length > 0 <;> simp [h1, h2]
  · rw [occurrences_columnTokens ')' keyword (hk _ (by simp)) (by decide),
      occurrences_lengthSuffix_close]
    by_cases h1 : _type = "" <;> by_cases h2 : length > 0 <;> simp [h1, h2]
  · rw [occurrences_columnTokens ',' keyword (hk _ (by simp)) (by decide),
      occurrences_lengthSuffix_comma]
    by_cases h1 : _type = "" <;> by_cases h2 : length > 0 <;> by_cases h3 : decimal > 0 <;>
      simp [h1, h2, h3]
  · exact Contains_Join_of_mem _ _ _ (by simp [columnTokens, h])

/-! ## The length/decimal suffix -/

/-- C9, as stated, fails: with an empty type, `length = 10` and `decimal = 3` the fragment
of `ModifyColumn` has no parenthesis and no comma at all. -/
theorem ModifyColumn_suffix_absent :
    (0 : Int) < 10 ∧ (0 : Int) < 3 ∧
    (ModifyColumn testSpec "c1" "" 10 3 "" false "" "").recv.alter = "MODIFY COLUMN c1" ∧
    ¬ Contains (ModifyColumn testSpec "c1" "" 10 3 "" false "" "").recv.alter "(" ∧
    ¬ Contains (ModifyColumn testSpec "c1" "" 10 3 "" false "" "").recv.alter "," ∧
    ¬ Contains (ModifyColumn testSpec "c1" "" 10 3 "" false "" "").recv.alter "(10,3)" := by
  decide

/-- C9, amended: in the fragment of `AddColumn` and of `ModifyColumn` the suffix is
emitted exactly when the type is non-empty and `length > 0`, and its `,decimal` part
exactly when moreover `decimal > 0`.  Beyond the occurrences in the five string arguments
themselves, the fragment has one `(` and one `)` when the type is non-empty and
`length > 0` and none otherwise, one `,` when moreover `decimal > 0` and none otherwise;
and with a non-empty type the fragment contains the type directly followed by
`(length,decimal)`, by `(length)`, or by nothing, as `length` and `decimal` decide. -/
theorem column_suffix_emitted (o : orm) (columnName _type : String) (length decimal : Int)
    (charset : String) (notNULL : Bool) (_default comment : String) :
    ∀ a ∈ [(AddColumn o columnName _type length decimal charset notNULL _default
              comment).recv.alter,
           (ModifyColumn o columnName _type length decimal charset notNULL _default
              comment).recv.alter],
      occurrences '(' a
        = suppliedOccurrences '(' columnName _type charset _default comment +
            (if _type ≠ "" ∧ length > 0 then 1 else 0) ∧
      occurrences ')' a
        = suppliedOccurrences ')' columnName _type charset _default comment +
            (if _type ≠ "" ∧ length > 0 then 1 else 0) ∧
      occurrences ',' a
        = suppliedOccurrences ',' columnName _type charset _default comment +
            (if _type ≠ "" ∧ length > 0 ∧ decimal > 0 then 1 else 0) ∧
      (_type ≠ "" →
        Contains a
          (_type ++
            (if length > 0 ∧ decimal > 0 then
              "(" ++ Itoa length ++ "," ++ Itoa decimal ++ ")"
             else if length > 0 then "(" ++ Itoa length ++ ")"
             else ""))) := by
  intro a ha
  simp only [List.mem_cons, List.mem_singleton, List.not_mem_nil, or_false] at ha
  rcases ha with rfl | rfl
  · rw [AddColumn_alter]
    exact column_suffix_of_tokens "ADD COLUMN" (Or.inl rfl) _ _ _ _ _ _ _ _
  · rw [ModifyColumn_alter]
    exact column_suffix_of_tokens "MODIFY COLUMN" (Or.inr rfl) _ _ _ _ _ _ _ _

/-- C9, amended, on the inputs of the repository's test for `ModifyColumn`. -/
theorem column_suffix_emitted_witness :
    occurrences '(' "MODIFY COLUMN c1 decimal(10,3) NOT NULL DEFAULT 0.00 COMMENT 'test'" = 1 ∧
    occurrences ',' "MODIFY COLUMN c1 decimal(10,3) NOT NULL DEFAULT 0.00 COMMENT 'test'" = 1 ∧
    Contains (ModifyColumn testSpec "c1" "decimal" 10 3 "" true "0.00" "test").recv.alter
      "decimal(10,3)" :=
  ⟨by decide, by decide,
    (column_suffix_emitted testSpec "c1" "decimal" 10 3 "" true "0.00" "test"
      (ModifyColumn testSpec "c1" "decimal" 10 3 "" true "0.00" "test").recv.alter
      (by simp)).2.2.2 (by decide)⟩

/-! ## The flag options -/

theorem FlagMap.get?_set (m : FlagMap) (k v k' : String) :
    FlagMap.get? (FlagMap.set m k v) k' = if k = k' then some v else FlagMap.get? m k' := by
  induction m with
  | nil => simp [FlagMap.set, FlagMap.get?]
  | cons kv m ih =>
    obtain ⟨a, b⟩ := kv
    by_cases hak : a = k
    · subst hak
      by_cases hak' : a = k' <;> simp [FlagMap.set, FlagMap.get?, hak']
    · by_cases hak' : a = k'
      · subst hak'
        have : ¬ k = a := fun e => hak e.symm
        simp [FlagMap.set, FlagMap.get?, hak, this]
      · simp [FlagMap.set, FlagMap.get?, hak, hak', ih]

theorem FlagMap.keys_set (m : FlagMap) (k v : String) :
    (FlagMap.set m k v).map Prod.fst
      = if k ∈ m.map Prod.fst then m.map Prod.fst else m.map Prod.fst ++ [k] := by
  induction m with
  | nil => simp [FlagMap.set]
  | cons kv m ih =>
    obtain ⟨a, b⟩ := kv
    by_cases hak : a = k
    · subst hak
      simp [FlagMap.set]
    · have hka : ¬ k = a := fun e => hak e.symm
      simp only [FlagMap.set, hak, if_false, List.map_cons, ih, List.mem_cons, hka, false_or]
      split <;> simp

theorem FlagMap.nodup_set (m : FlagMap) (k v : String) (h : (m.map Prod.fst).Nodup) :
    ((FlagMap.set m k v).map Prod.fst).Nodup := by
  rw [FlagMap.keys_set]
  split
  · exact h
  · rename_i hk
    exact List.Nodup.append h (List.nodup_singleton k) (by simpa using hk)

theorem FlagSetting.option_apply (s : FlagSetting) (o : orm) :
    s.option o = { o with flags := FlagMap.set o.flags s.key s.value } := by
  cases s with
  | withFlag pk pv => cases pv <;> rfl
  | withAssumeMasterHostFlag host => rfl

theorem foldl_settings (settings : List FlagSetting) (o : orm) :
    (settings.map FlagSetting.option).foldl (fun o option => option o) o
      = { o with flags := settings.foldl (fun m s => FlagMap.set m s.key s.value) o.flags } := by
  induction settings generalizing o with
  | nil => rfl
  | cons s settings ih =>
    simp only [List.map_cons, List.foldl_cons]
    rw [ih, FlagSetting.option_apply]

theorem foldl_set_get? (settings : List FlagSetting) (m : FlagMap) (k : String) :
    FlagMap.get? (settings.foldl (fun m s => FlagMap.set m s.key s.value) m) k
      = ((settings.reverse.find? fun s => s.key = k).map FlagSetting.value).orElse
          (fun _ => FlagMap.get? m k) := by
  induction settings using List.reverseRecOn with
  | nil => simp
  | append_singleton settings s ih =>
    rw [List.foldl_append, List.reverse_append]
    simp only [List.foldl_cons, List.foldl_nil, List.reverse_cons, List.reverse_nil,
      List.nil_append, List.singleton_append, List.find?_cons]
    rw [FlagMap.get?_set]
    by_cases hk : s.key = k
    · simp [hk]
    · simp [hk, ih]

theorem foldl_set_nodup (settings : List FlagSetting) (m : FlagMap)
    (h : (m.map Prod.fst).Nodup) :
    ((settings.foldl (fun m s => FlagMap.set m s.key s.value) m).map Prod.fst).Nodup := by
  induction settings generalizing m with
  | nil => exact h
  | cons s settings ih => exact ih _ (FlagMap.nodup_set m _ _ h)

/-- C12: the flags map of `New` is the result of applying the options one after the
other, in the order supplied, to the empty map; with no options it is empty; a key holds
the value of the last option that sets it, and a key no option sets is absent. -/
theorem New_flags (binPath host user password database table : String)
    (settings : List FlagSetting) :
    (New binPath host user password database table
        (settings.map FlagSetting.option)).flags
      = settings.foldl (fun m s => FlagMap.set m s.key s.value) [] ∧
    (New binPath host user password database table []).flags = [] ∧
    (∀ k : String,
      FlagMap.get?
          (New binPath host user password database table
            (settings.map FlagSetting.option)).flags k
        = (settings.reverse.find? fun s => s.key = k).map FlagSetting.value) ∧
    ((New binPath host user password database table
        (settings.map FlagSetting.option)).flags.map Prod.fst).Nodup := by
  have h : (New binPath host user password database table
        (settings.map FlagSetting.option)).flags
      = settings.foldl (fun m s => FlagMap.set m s.key s.value) [] := by
    unfold New
    rw [foldl_settings]
  refine ⟨h, rfl, fun k => ?_, ?_⟩
  · rw [h, foldl_set_get?]
    cases (settings.reverse.find? fun s => s.key = k) <;> simp [FlagMap.get?]
  · rw [h]
    exact foldl_set_nodup settings [] (by simp)

/-- C13: `WithFlag(k)` sets `flags[k]` to the empty string, `WithFlag(k, v, ...)` sets it
to `v`; no other key and no other field changes; and `WithAssumeMasterHostFlag(h)` is the
same function of the Spec as `WithFlag("assume-master-host", h)`. -/
theorem WithFlag_effect (o : orm) (k v : String) (vs : List String) (host : String) :
    FlagMap.get? (WithFlag k [] o).flags k = some "" ∧
    FlagMap.get? (WithFlag k (v :: vs) o).flags k = some v ∧
    (∀ (pv : List String) (k' : String), k' ≠ k →
      FlagMap.get? (WithFlag k pv o).flags k' = FlagMap.get? o.flags k') ∧
    (∀ pv : List String, { WithFlag k pv o with flags := o.flags } = o) ∧
    WithAssumeMasterHostFlag host = WithFlag "assume-master-host" [host] := by
  refine ⟨?_, ?_, fun pv k' hk => ?_, fun pv => ?_, rfl⟩
  · simp [WithFlag, FlagMap.get?_set]
  · simp [WithFlag, FlagMap.get?_set]
  · have hk' : ¬ k = k' := fun e => hk e.symm
    cases pv <;> simp [WithFlag, FlagMap.get?_set, hk']
  · cases pv <;> rfl

/-- C13 on a Spec that already holds a flag: setting `verbose` leaves `chunk-size`. -/
theorem WithFlag_effect_witness :
    "chunk-size" ≠ "verbose" ∧
    FlagMap.get? (WithFlag "verbose" [] flaggedSpec).flags "chunk-size" = some "500" :=
  ⟨by decide,
    ((WithFlag_effect flaggedSpec "verbose" "" [] "").2.2.1 [] "chunk-size" (by decide)).trans
      (by decide)⟩

/-! ## The constructor -/

theorem foldl_options_fields (flagOptions : List FlagOption)
    (h : ∀ f ∈ flagOptions, IsFlagOption f) (o : orm) :
    (flagOptions.foldl (fun o option => option o) o).binPath = o.binPath ∧
    (flagOptions.foldl (fun o option => option o) o).host = o.host ∧
    (flagOptions.foldl (fun o option => option o) o).user = o.user ∧
    (flagOptions.foldl (fun o option => option o) o).password = o.password ∧
    (flagOptions.foldl (fun o option => option o) o).database = o.database ∧
    (flagOptions.foldl (fun o option => option o) o).table = o.table ∧
    (flagOptions.foldl (fun o option => option o) o).alter = o.alter := by
  induction flagOptions generalizing o with
  | nil => exact ⟨rfl, rfl, rfl, rfl, rfl, rfl, rfl⟩
  | cons f rest ih =>
    simp only [List.foldl_cons]
    obtain ⟨r1, r2, r3, r4, r5, r6, r7⟩ :=
      ih (fun g hg => h g (List.mem_cons_of_mem _ hg)) (f o)
    have hf : (f o).binPath = o.binPath ∧ (f o).host = o.host ∧ (f o).user = o.user ∧
        (f o).password = o.password ∧ (f o).database = o.database ∧
        (f o).table = o.table ∧ (f o).alter = o.alter := by
      rcases h f (List.mem_cons_self _ _) with ⟨pk, pv, rfl⟩ | ⟨host, rfl⟩
      · cases pv <;> exact ⟨rfl, rfl, rfl, rfl, rfl, rfl, rfl⟩
      · exact ⟨rfl, rfl, rfl, rfl, rfl, rfl, rfl⟩
    obtain ⟨f1, f2, f3, f4, f5, f6, f7⟩ := hf
    exact ⟨r1.trans f1, r2.trans f2, r3.trans f3, r4.trans f4, r5.trans f5, r6.trans f6,
      r7.trans f7⟩

/-- C14, as stated, fails: `New` called with empty coordinates returns a Spec whose five
coordinate fields are empty. -/
theorem New_keeps_empty_coordinates :
    (New "./gh-ost" "" "" "" "" "" []).host = "" ∧
    (New "./gh-ost" "" "" "" "" "" []).user = "" ∧
    (New "./gh-ost" "" "" "" "" "" []).password = "" ∧
    (New "./gh-ost" "" "" "" "" "" []).database = "" ∧
    (New "./gh-ost" "" "" "" "" "" []).table = "" := by
  decide

/-- C14, amended: after `New` the five coordinate fields (and the binary path) hold the
arguments as supplied, whatever the flag options; so each coordinate is non-empty exactly
when its argument is, and `alter` is empty. -/
theorem New_coordinates (binPath host user password database table : String)
    (flagOptions : List FlagOption) (h : ∀ f ∈ flagOptions, IsFlagOption f) :
    (New binPath host user password database table flagOptions).binPath = binPath ∧
    (New binPath host user password database table flagOptions).host = host ∧
    (New binPath host user password database table flagOptions).user = user ∧
    (New binPath host user password database table flagOptions).password = password ∧
    (New binPath host user password database table flagOptions).database = database ∧
    (New binPath host user password database table flagOptions).table = table ∧
    (New binPath host user password database table flagOptions).alter = "" ∧
    (((New binPath host user password database table flagOptions).host ≠ "" ∧
      (New binPath host user password database table flagOptions).user ≠ "" ∧
      (New binPath host user password database table flagOptions).password ≠ "" ∧
      (New binPath host user password database table flagOptions).database ≠ "" ∧
      (New binPath host user password database table flagOptions).table ≠ "") ↔
     (host ≠ "" ∧ user ≠ "" ∧ password ≠ "" ∧ database ≠ "" ∧ table ≠ "")) := by
  obtain ⟨e1, e2, e3, e4, e5, e6, e7⟩ := foldl_options_fields flagOptions h
    { binPath := binPath, host := host, user := user, password := password,
      database := database, table := table, flags := [], alter := "" }
  unfold New
  refine ⟨e1, e2, e3, e4, e5, e6, e7, ?_⟩
  rw [e2, e3, e4, e5, e6]

/-- C14, amended, on the Spec of the repository's test built with a flag option. -/
theorem New_coordinates_witness :
    (New "./gh-ost" "127.0.0.1" "root" "123456" "test" "test"
      [WithFlag "verbose" []]).host = "127.0.0.1" :=
  (New_coordinates "./gh-ost" "127.0.0.1" "root" "123456" "test" "test"
    [WithFlag "verbose" []]
    (by
      intro f hf
      simp only [List.mem_singleton] at hf
      subst hf
      exact Or.inl ⟨_, _, rfl⟩)).2.1

/-! ## The results of the builders -/

/-- C15: `SetEngine`, `AddColumn`, `ModifyColumn`, `RemoveIndex` and, with a column,
`AddIndex` return the Spec they were called on, carrying the fragment just set;
`RemoveColumn` sets its fragment and returns nothing. -/
theorem RemoveColumn_returns_nothing (o : orm) (s : String) :
    (RemoveColumn o s).result = none ∧
    (RemoveColumn o s).recv = { o with alter := "DROP COLUMN " ++ s } ∧
    (RemoveIndex o s).result = some { o with alter := "DROP INDEX " ++ s } ∧
    (SetEngine o s).result = some (SetEngine o s).recv ∧
    (RemoveIndex o s).result = some (RemoveIndex o s).recv ∧
    (∀ columnName _type length decimal charset notNULL _default comment,
      (AddColumn o columnName _type length decimal charset notNULL _default comment).result
        = some (AddColumn o columnName _type length decimal charset notNULL _default
            comment).recv ∧
      (ModifyColumn o columnName _type length decimal charset notNULL _default comment).result
        = some (ModifyColumn o columnName _type length decimal charset notNULL _default
            comment).recv) ∧
    (∀ indexName indexType indexMethod column columns,
      (AddIndex o indexName indexType indexMethod (column :: columns)).result
        = some (AddIndex o indexName indexType indexMethod (column :: columns)).recv) :=
  ⟨rfl, rfl, rfl, rfl, rfl, fun _ _ _ _ _ _ _ _ => ⟨rfl, rfl⟩, fun _ _ _ _ _ => rfl⟩

/-- C16: `SetEngine(s)` stores `engine=` and `s`, `RemoveColumn(s)` stores `DROP COLUMN `
and `s`, `RemoveIndex(s)` stores `DROP INDEX ` and `s`, for every `s`, the empty string
included; the inputs of the specification give the fragments it lists. -/
theorem simple_builder_fragments (o : orm) (s : String) :
    (SetEngine o s).recv.alter = "engine=" ++ s ∧
    (RemoveColumn o s).recv.alter = "DROP COLUMN " ++ s ∧
    (RemoveIndex o s).recv.alter = "DROP INDEX " ++ s ∧
    (SetEngine o "").recv.alter = "engine=" ∧
    (RemoveColumn o "").recv.alter = "DROP COLUMN " ∧
    (RemoveIndex o "").recv.alter = "DROP INDEX " ∧
    (SetEngine o "InnoDB").recv.alter = "engine=InnoDB" ∧
    (RemoveColumn o "c1").recv.alter = "DROP COLUMN c1" ∧
    (RemoveIndex o "idx_c1").recv.alter = "DROP INDEX idx_c1" :=
  ⟨rfl, rfl, rfl,
    (by decide : "engine=" ++ "" = "engine="),
    (by decide : "DROP COLUMN " ++ "" = "DROP COLUMN "),
    (by decide : "DROP INDEX " ++ "" = "DROP INDEX "),
    (by decide : "engine=" ++ "InnoDB" = "engine=InnoDB"),
    (by decide : "DROP COLUMN " ++ "c1" = "DROP COLUMN c1"),
    (by decide : "DROP INDEX " ++ "idx_c1" = "DROP INDEX idx_c1")⟩

/-! ## The result of `Execute` -/

/-- C17: when `alter` is non-empty and the child starts, `Execute` returns what `Wait`
reports: `nil` exactly when the child exits with status 0, and otherwise the error of
`Wait`, unchanged. -/
theorem Execute_returns_wait (o : orm) (visit : List (String × String)) (child : Child)
    (exitCode : Int) (exitError : String)
    (h : o.alter ≠ "") (hout : child.stdoutPipe = none) (herr : child.stderrPipe = none)
    (hstart : child.start = none) (hwait : child.wait = Wait exitCode exitError) :
    (Execute o visit child).ending = .returned child.wait ∧
    ((Execute o visit child).ending = .returned none ↔ exitCode = 0) ∧
    (exitCode ≠ 0 → (Execute o visit child).ending = .returned (some exitError)) ∧
    (Execute o visit child).launched = true := by
  have hend : (Execute o visit child).ending = .returned child.wait ∧
      (Execute o visit child).launched = true := by
    unfold Execute
    rw [if_neg h]
    rcases child with ⟨so, se, st, w⟩
    simp only at hout herr hstart
    subst hout herr hstart
    cases w <;> exact ⟨rfl, rfl⟩
  refine ⟨hend.1, ?_, fun hne => ?_, hend.2⟩
  · rw [hend.1, hwait]
    unfold Wait
    by_cases hc : exitCode = 0 <;> simp [hc]
  · rw [hend.1, hwait]
    simp [Wait, hne]

/-- C17 on a child that starts and exits with status 1. -/
theorem Execute_returns_wait_witness :
    flaggedSpec.alter ≠ "" ∧
    (Execute flaggedSpec flaggedSpec.flags
      { stdoutPipe := none, stderrPipe := none, start := none,
        wait := some "exit status 1" }).ending = .returned (some "exit status 1") :=
  ⟨by decide,
    (Execute_returns_wait flaggedSpec flaggedSpec.flags
      { stdoutPipe := none, stderrPipe := none, start := none, wait := some "exit status 1" }
      1 "exit status 1" (by decide) rfl rfl rfl (by decide)).2.2.1 (by decide)⟩

/-! ## Occurrences in the index fragment -/

theorem tails_filter_cons (sub : List Char) (c : Char) (l : List Char) :
    ((c :: l).tails.filter fun t => sub <+: t).length
      = (if sub <+: c :: l then 1 else 0) + (l.tails.filter fun t => sub <+: t).length := by
  rw [List.tails, List.filter_cons]
  by_cases h : sub <+: c :: l <;> simp [h, Nat.add_comm]

/-- The occurrences of a character in the fragment of `AddIndex`. -/
theorem occurrences_AddIndex (c : Char)
    (hc : occurrences c "ADD" = 0 ∧ occurrences c "ADD " = 0 ∧ occurrences c "," = 0 ∧
      occurrences c " USING " = 0)
    (o : orm) (indexName indexType indexMethod : String) (columns : List String)
    (h : columns ≠ []) :
    occurrences c (AddIndex o indexName indexType indexMethod columns).recv.alter
      = ((indexName :: indexType :: indexMethod :: columns).map (occurrences c)).sum +
        occurrences c " INDEX " + occurrences c "(" + occurrences c ")" := by
  obtain ⟨h1, h2, h3, h4⟩ := hc
  have hlen : ¬ columns.length = 0 := by
    cases columns with
    | nil => exact absurd rfl h
    | cons a l => simp
  simp only [AddIndex, hlen, if_false, Outcome.recv]
  by_cases ht : indexType = "" <;> by_cases hm : indexMethod = "" <;>
    simp [ht, hm, occurrences_append, occurrences_Join c "," h3, h1, h2, h4,
      occurrences_empty] <;>
    omega

/-- C11, as stated, fails: with the prefix-length column `name(10)` the fragment of
`AddIndex` has two `(` and two `)`; and with the index type `INDEX` and an empty index
name it has two occurrences of `INDEX `. -/
theorem AddIndex_two_parentheses :
    (AddIndex testSpec "idx_name" "" "" ["name(10)"]).recv.alter
      = "ADD INDEX idx_name(name(10))" ∧
    occurrences '(' (AddIndex testSpec "idx_name" "" "" ["name(10)"]).recv.alter = 2 ∧
    occurrences ')' (AddIndex testSpec "idx_name" "" "" ["name(10)"]).recv.alter = 2 ∧
    (AddIndex testSpec "" "INDEX" "" ["c1"]).recv.alter = "ADD INDEX INDEX (c1)" ∧
    occurrencesOf ("INDEX " ++ "") (AddIndex testSpec "" "INDEX" "" ["c1"]).recv.alter = 2 := by
  decide

/-! ## Spacing of the column fragment -/

theorem pairFree_getLast (x y : Char) (l : List Char) (h : pairFree x y l = true) :
    ¬ [x] <:+ l := by
  induction l with
  | nil => simp
  | cons a l ih =>
    cases l with
    | nil =>
      have ha : a ≠ x := by simpa [pairFree] using h
      intro hs
      have := List.IsSuffix.length_le hs
      rcases hs with ⟨t, ht⟩
      cases t with
      | nil => simp at ht; exact ha ht.symm
      | cons c t => simp at ht
    | cons b l =>
      intro hs
      apply ih (pairFree_tail x y a _ h)
      rcases hs with ⟨t, ht⟩
      cases t with
      | nil => simp at ht
      | cons c t =>
        simp only [List.cons_append, List.cons.injEq] at ht
        exact ⟨t, ht.2⟩

theorem pairFree_of_not (x : Char) (l : List Char) (hs : ¬ [x] <:+ l)
    (hi : ¬ [x, x] <:+: l) : pairFree x x l = true := by
  induction l with
  | nil => rfl
  | cons a l ih =>
    cases l with
    | nil =>
      have : a ≠ x := fun e => hs (e ▸ List.suffix_refl _)
      simp [pairFree, this]
    | cons b l =>
      have h1 : ¬ (a = x ∧ b = x) := by
        rintro ⟨rfl, rfl⟩
        exact hi ⟨[], l, rfl⟩
      have h2 : pairFree x x (b :: l) = true :=
        ih (fun h => hs (List.IsSuffix.trans h (List.suffix_cons _ _)))
          (fun h => hi (List.IsInfix.trans h (List.suffix_cons _ _).isInfix))
      simp only [pairFree, Bool.and_eq_true, Bool.not_eq_true', Bool.and_eq_false_iff,
        beq_eq_false_iff_ne, ne_eq]
      exact ⟨by tauto, h2⟩

theorem Token.glue {a b : List Char} (ha : Token a) (hb : Token b) :
    Token (a ++ ' ' :: b) := by
  obtain ⟨a0, a1, a2⟩ := ha
  obtain ⟨b0, b1, b2⟩ := hb
  refine ⟨by simp, ?_, ?_⟩
  · cases a with
    | nil => exact absurd rfl a0
    | cons c a =>
      intro h
      apply a1
      rcases h with ⟨t, ht⟩
      simp only [List.cons_append, List.cons.injEq, List.nil_append] at ht
      exact ⟨a, by rw [ht.1]; rfl⟩
  · apply pairFree_append _ _ _ _ a2
    cases b with
    | nil => exact absurd rfl b0
    | cons c b =>
      have hc : c ≠ ' ' := fun e => b1 ⟨b, by simp [e]⟩
      simp [pairFree, hc, b2]

theorem Token.append_spaceless {a b : List Char} (ha : Token a)
    (hb : pairFree ' ' ' ' b = true) : Token (a ++ b) := by
  obtain ⟨a0, a1, a2⟩ := ha
  refine ⟨by simp [a0], ?_, pairFree_append _ _ _ _ a2 hb⟩
  cases a with
  | nil => exact absurd rfl a0
  | cons c a =>
    intro h
    apply a1
    rcases h with ⟨t, ht⟩
    simp only [List.cons_append, List.cons.injEq, List.nil_append] at ht
    exact ⟨a, by rw [ht.1]; rfl⟩

theorem Token.of_singleSpaced {s : String} (h : SingleSpaced s) (hne : s ≠ "") :
    Token s.data := by
  obtain ⟨h1, h2, h3⟩ := h
  refine ⟨fun e => hne (String.ext e), h1, pairFree_of_not ' ' _ h2 h3⟩

theorem Token.singleSpaced {s : String} (h : Token s.data) : SingleSpaced s :=
  ⟨h.2.1, pairFree_getLast _ _ _ h.2.2, pairFree_not_infix _ _ _ h.2.2⟩

theorem Token.of_join (l : List String) (hl : l ≠ []) (h : ∀ s ∈ l, Token s.data) :
    Token (Join l " ").data := by
  induction l with
  | nil => exact absurd rfl hl
  | cons a l ih =>
    cases l with
    | nil => exact h a (List.mem_cons_self _ _)
    | cons b l =>
      rw [Join_cons_cons, String.data_append, String.data_append]
      exact Token.glue (h a (List.mem_cons_self _ _))
        (ih (List.cons_ne_nil _ _) (fun s hs => h s (List.mem_cons_of_mem _ hs)))

theorem mem_columnTokens_strict (s keyword columnName _type : String) (length decimal : Int)
    (charset : String) (notNULL : Bool) (_default comment : String)
    (h : s ∈ columnTokens keyword columnName _type length decimal charset notNULL
      _default comment) :
    s = keyword ∨ (columnName ≠ "" ∧ s = columnName) ∨
      (_type ≠ "" ∧ s = _type ++ lengthSuffix length decimal) ∨
      (charset ≠ "" ∧ s = "CHARACTER " ++ charset) ∨
      (notNULL = true ∧ s = "NOT NULL") ∨
      (_default ≠ "" ∧ s = "DEFAULT " ++ _default) ∨
      (comment ≠ "" ∧ s = "COMMENT '" ++ comment ++ "'") := by
  unfold columnTokens optionalClauses at h
  simp only [List.mem_append, List.mem_singleton, List.mem_ite_nil_right] at h
  tauto

theorem singleSpaced_of_tokens (keyword : String)
    (hkw : keyword = "ADD COLUMN" ∨ keyword = "MODIFY COLUMN")
    (columnName _type : String) (length decimal : Int)
    (charset : String) (notNULL : Bool) (_default comment : String)
    (h : ∀ s ∈ [columnName, _type, charset, _default, comment], SingleSpaced s) :
    SingleSpaced (Join (columnTokens keyword columnName _type length decimal charset notNULL
      _default comment) " ") := by
  have u1 : SingleSpaced columnName := h _ (by simp)
  have u2 : SingleSpaced _type := h _ (by simp)
  have u3 : SingleSpaced charset := h _ (by simp)
  have u4 : SingleSpaced _default := h _ (by simp)
  have u5 : SingleSpaced comment := h _ (by simp)
  have hconst : ∀ k : String, SingleSpaced k → k ≠ "" → Token k.data :=
    fun k hk hne => Token.of_singleSpaced hk hne
  apply Token.singleSpaced
  apply Token.of_join _ (by simp [columnTokens])
  intro s hs
  rcases mem_columnTokens_strict _ _ _ _ _ _ _ _ _ _ hs with
    rfl | ⟨h0, rfl⟩ | ⟨h0, rfl⟩ | ⟨h0, rfl⟩ | ⟨h0, rfl⟩ | ⟨h0, rfl⟩ | ⟨h0, rfl⟩
  · rcases hkw with rfl | rfl
    · exact hconst _ (by decide) (by decide)
    · exact hconst _ (by decide) (by decide)
  · exact Token.of_singleSpaced u1 h0
  · rw [String.data_append]
    exact Token.append_spaceless (Token.of_singleSpaced u2 h0)
      (pairFree_of_not_mem _ _ _ (not_mem_lengthSuffix ' ' (by decide) length decimal))
  · have e : ("CHARACTER " ++ charset).data = "CHARACTER".data ++ ' ' :: charset.data := by
      rw [String.data_append]; rfl
    rw [e]
    exact Token.glue (hconst _ (by decide) (by decide)) (Token.of_singleSpaced u3 h0)
  · exact hconst _ (by decide) (by decide)
  · have e : ("DEFAULT " ++ _default).data = "DEFAULT".data ++ ' ' :: _default.data := by
      rw [String.data_append]; rfl
    rw [e]
    exact Token.glue (hconst _ (by decide) (by decide)) (Token.of_singleSpaced u4 h0)
  · rw [String.data_append, String.data_append]
    exact Token.append_spaceless
      (Token.append_spaceless (hconst "COMMENT '" (by decide) (by decide))
        (Token.of_singleSpaced u5 h0).2.2)
      (by decide)

/-- C19: when no string argument begins or ends with a space or holds two consecutive
spaces, the fragment of `AddColumn` and of `ModifyColumn` has no leading space, no
trailing space and no two consecutive spaces, also with an empty column name or type. -/
theorem column_fragment_single_spaced (o : orm) (columnName _type : String)
    (length decimal : Int) (charset : String) (notNULL : Bool) (_default comment : String)
    (h : ∀ s ∈ [columnName, _type, charset, _default, comment], SingleSpaced s) :
    SingleSpaced
      (AddColumn o columnName _type length decimal charset notNULL _default
        comment).recv.alter ∧
    SingleSpaced
      (ModifyColumn o columnName _type length decimal charset notNULL _default
        comment).recv.alter := by
  rw [AddColumn_alter, ModifyColumn_alter]
  exact ⟨singleSpaced_of_tokens _ (Or.inl rfl) _ _ _ _ _ _ _ _ h,
    singleSpaced_of_tokens _ (Or.inr rfl) _ _ _ _ _ _ _ _ h⟩

/-- C19 on inputs with an empty column name and an empty type. -/
theorem column_fragment_single_spaced_witness :
    (∀ s ∈ ["", "", "utf8mb4", "", "a b"], SingleSpaced s) ∧
    (AddColumn testSpec "" "" 10 2 "utf8mb4" true "" "a b").recv.alter
      = "ADD COLUMN CHARACTER utf8mb4 NOT NULL COMMENT 'a b'" ∧
    SingleSpaced (AddColumn testSpec "" "" 10 2 "utf8mb4" true "" "a b").recv.alter :=
  ⟨by decide, by decide,
    (column_fragment_single_spaced testSpec "" "" 10 2 "utf8mb4" true "" "a b"
      (by decide)).1⟩

/-! ## A fragment is always set -/

theorem ne_empty_of_data {s : String} (h : s.data ≠ []) : s ≠ "" := by
  rintro rfl
  exact h rfl

theorem append_ne_empty_left (s t : String) (h : s ≠ "") : s ++ t ≠ "" := by
  apply ne_empty_of_data
  rw [String.data_append]
  intro e
  exact h (String.ext (by simpa using (List.append_eq_nil.1 e).1))

theorem append_ne_empty_right (s t : String) (h : t ≠ "") : s ++ t ≠ "" := by
  apply ne_empty_of_data
  rw [String.data_append]
  intro e
  exact h (String.ext (by simpa using (List.append_eq_nil.1 e).2))

theorem Join_cons_ne_empty (a : String) (l : List String) (sep : String) (h : a ≠ "") :
    Join (a :: l) sep ≠ "" := by
  obtain ⟨rest, hr⟩ := Join_cons_rest l sep
  rw [hr]
  exact append_ne_empty_left _ _ h

theorem BuilderOp.call_alter_ne_empty (op : BuilderOp) (h : op.admissible) (o : orm) :
    (op.call o).recv.alter ≠ "" := by
  cases op with
  | setEngine engine => exact append_ne_empty_left _ _ (by decide)
  | addColumn columnName _type length decimal charset notNULL _default comment =>
    show (AddColumn o _ _ _ _ _ _ _ _).recv.alter ≠ ""
    rw [AddColumn_alter]
    exact Join_cons_ne_empty _ _ _ (by decide)
  | modifyColumn columnName _type length decimal charset notNULL _default comment =>
    show (ModifyColumn o _ _ _ _ _ _ _ _).recv.alter ≠ ""
    rw [ModifyColumn_alter]
    exact Join_cons_ne_empty _ _ _ (by decide)
  | removeColumn columnName => exact append_ne_empty_left _ _ (by decide)
  | removeIndex indexName => exact append_ne_empty_left _ _ (by decide)
  | addIndex indexName indexType indexMethod columns =>
    cases columns with
    | nil => exact absurd rfl h
    | cons c columns =>
      have h1 : ∀ s : String, s ++ (" INDEX " ++ indexName) ≠ "" := fun s =>
        append_ne_empty_right _ _ (append_ne_empty_left _ _ (by decide))
      simp only [BuilderOp.call, AddIndex, List.length_cons, Nat.add_one_ne_zero, if_false,
        Outcome.recv]
      split
      · exact append_ne_empty_left _ _ (append_ne_empty_left _ _ (h1 _))
      · exact append_ne_empty_left _ _ (h1 _)

theorem BuilderOp.call_recv_of_not_admissible (op : BuilderOp) (h : ¬ op.admissible)
    (o : orm) : (op.call o).recv = o := by
  cases op with
  | addIndex indexName indexType indexMethod columns =>
    cases columns with
    | nil => rfl
    | cons c columns => exact absurd (List.cons_ne_nil _ _) h
  | _ => exact absurd trivial h

/-- C20: a builder call that returns leaves a non-empty `alter`, whatever its arguments;
so after any sequence of builder calls of which at least one returned (a panicking
`AddIndex` leaves the Spec as it was), `alter` is non-empty and `Execute` does not panic. -/
theorem builder_sets_fragment (s : orm) (ops : List BuilderOp)
    (visit : List (String × String)) (child : Child)
    (h : ∃ op ∈ ops, op.admissible) :
    (∀ op ∈ ops, op.admissible → ∀ o : orm,
      (op.call o).aborted = false ∧ (op.call o).recv.alter ≠ "") ∧
    (ops.foldl (fun o op => (op.call o).recv) s).alter ≠ "" ∧
    ¬ ∃ msg, (Execute (ops.foldl (fun o op => (op.call o).recv) s) visit child).ending
        = .panicked msg := by
  have hne : (ops.foldl (fun o op => (op.call o).recv) s).alter ≠ "" := by
    induction ops using List.reverseRecOn with
    | nil =>
      obtain ⟨op, hop, _⟩ := h
      exact absurd hop (List.not_mem_nil _)
    | append_singleton ops op ih =>
      rw [List.foldl_append]
      simp only [List.foldl_cons, List.foldl_nil]
      by_cases hop : op.admissible
      · exact BuilderOp.call_alter_ne_empty op hop _
      · rw [BuilderOp.call_recv_of_not_admissible op hop]
        apply ih
        obtain ⟨op', hop', hadm⟩ := h
        rcases List.mem_append.1 hop' with hm | hm
        · exact ⟨op', hm, hadm⟩
        · simp only [List.mem_singleton] at hm
          subst hm
          exact absurd hadm hop
  refine ⟨fun op _ hadm o => ?_, hne, ?_⟩
  · obtain ⟨fragment, hf⟩ := BuilderOp.call_recv op hadm
    exact ⟨(hf o).1, BuilderOp.call_alter_ne_empty op hadm o⟩
  · rintro ⟨msg, hmsg⟩
    unfold Execute at hmsg
    rw [if_neg hne] at hmsg
    rcases child with ⟨_ | a, _ | b, _ | c, _ | d⟩ <;> simp at hmsg

/-- C20 on the test's Spec: `SetEngine("")` between two `AddIndex` calls without
columns. -/
theorem builder_sets_fragment_witness :
    (∃ op ∈ [BuilderOp.addIndex "idx" "" "" [], BuilderOp.setEngine "",
        BuilderOp.addIndex "idx" "" "" []], op.admissible) ∧
    ([BuilderOp.addIndex "idx" "" "" [], BuilderOp.setEngine "",
        BuilderOp.addIndex "idx" "" "" []].foldl (fun o op => (op.call o).recv) testSpec).alter
      = "engine=" ∧
    ([BuilderOp.addIndex "idx" "" "" [], BuilderOp.setEngine "",
        BuilderOp.addIndex "idx" "" "" []].foldl (fun o op => (op.call o).recv) testSpec).alter
      ≠ "" :=
  ⟨⟨BuilderOp.setEngine "", by simp, trivial⟩, by decide,
    (builder_sets_fragment testSpec
      [BuilderOp.addIndex "idx" "" "" [], BuilderOp.setEngine "",
        BuilderOp.addIndex "idx" "" "" []] [] cleanChild
      ⟨BuilderOp.setEngine "", by simp, trivial⟩).2.1⟩

/-! ## Text across a separator -/

theorem prefix_of_prefix_delim (d : Char) (W : List Char) (hd : d ∉ W) :
    ∀ x b : List Char, W <+: x ++ d :: b → W <+: x := by
  induction W with
  | nil => intro x b _; exact List.nil_prefix
  | cons w W ih =>
    intro x b h
    cases x with
    | nil =>
      have := (List.cons_prefix_cons.1 h).1
      exact absurd (this ▸ List.mem_cons_self _ _) hd
    | cons c x =>
      rw [List.cons_append] at h
      obtain ⟨hc, hr⟩ := List.cons_prefix_cons.1 h
      exact List.cons_prefix_cons.2
        ⟨hc, ih (fun hm => hd (List.mem_cons_of_mem _ hm)) x b hr⟩

theorem suffix_of_suffix_delim (d : Char) (W : List Char) (hd : d ∉ W)
    (a b : List Char) (h : W <:+ a ++ d :: b) : W <:+ b := by
  have h' : W.reverse <+: b.reverse ++ d :: a.reverse := by
    have := List.reverse_prefix.2 h
    simpa using this
  have := prefix_of_prefix_delim d W.reverse (by simpa using hd) _ _ h'
  exact List.reverse_prefix.1 this

theorem infix_of_infix_delim (d : Char) (T : List Char) (hd : d ∉ T)
    (a b : List Char) (h : T <:+: a ++ d :: b) : T <:+: a ∨ T <:+: b := by
  induction a with
  | nil =>
    rcases List.infix_cons_iff.1 h with hp | hi
    · exact Or.inl (prefix_of_prefix_delim d T hd [] b hp).isInfix
    · exact Or.inr hi
  | cons c a ih =>
    rw [List.cons_append] at h
    rcases List.infix_cons_iff.1 h with hp | hi
    · exact Or.inl (prefix_of_prefix_delim d T hd (c :: a) b hp).isInfix
    · rcases ih hi with h1 | h2
      · exact Or.inl (List.IsInfix.trans h1 (List.suffix_cons _ _).isInfix)
      · exact Or.inr h2

theorem infix_of_infix_foreign (T : List Char) (hT : T ≠ []) (a b : List Char)
    (hb : ∀ c ∈ b, c ∉ T) (h : T <:+: a ++ b) : T <:+: a := by
  induction b using List.reverseRecOn with
  | nil => simpa using h
  | append_singleton b d ih =>
    have hd : d ∉ T := hb d (by simp)
    have h' : T <:+: (a ++ b) ++ d :: [] := by simpa using h
    rcases infix_of_infix_delim d T hd _ _ h' with h1 | h2
    · exact ih (fun c hc => hb c (by simp [hc])) h1
    · exact absurd (List.eq_nil_of_infix_nil h2) hT

/-- A prefix `W₁ ␣ W₂` of `x ␣ b`, with no space in `W₁` and `W₂`, either lies inside `x`
or has `W₁ = x`. -/
theorem prefix_across_space (W₂ : List Char) (hs2 : ' ' ∉ W₂) :
    ∀ (W₁ : List Char), ' ' ∉ W₁ → ∀ x b : List Char,
      W₁ ++ ' ' :: W₂ <+: x ++ ' ' :: b →
      W₁ ++ ' ' :: W₂ <+: x ∨ (W₁ = x ∧ W₂ <+: b) := by
  intro W₁
  induction W₁ with
  | nil =>
    intro _ x b h
    cases x with
    | nil => exact Or.inr ⟨rfl, (List.cons_prefix_cons.1 h).2⟩
    | cons c x =>
      rw [List.nil_append] at h
      rw [List.cons_append] at h
      obtain ⟨hc, hr⟩ := List.cons_prefix_cons.1 h
      exact Or.inl (List.cons_prefix_cons.2 ⟨hc, prefix_of_prefix_delim ' ' W₂ hs2 x b hr⟩)
  | cons w W₁ ih =>
    intro hs x b h
    have hw : w ≠ ' ' := fun e => hs (e ▸ List.mem_cons_self _ _)
    have hs' : ' ' ∉ W₁ := fun hm => hs (List.mem_cons_of_mem _ hm)
    cases x with
    | nil =>
      rw [List.cons_append, List.nil_append] at h
      exact absurd (List.cons_prefix_cons.1 h).1 hw
    | cons c x =>
      rw [List.cons_append, List.cons_append] at h
      obtain ⟨hc, hr⟩ := List.cons_prefix_cons.1 h
      rcases ih hs' x b hr with h1 | ⟨h2, h3⟩
      · exact Or.inl (by rw [List.cons_append]; exact List.cons_prefix_cons.2 ⟨hc, h1⟩)
      · exact Or.inr ⟨by rw [hc, h2], h3⟩

/-- An occurrence of `W₁ ␣ W₂` in `a ␣ b`, with no space in `W₁` and `W₂`, lies inside
`a`, lies inside `b`, or has `W₁` at the end of `a`. -/
theorem infix_across_space (W₁ W₂ : List Char) (hs1 : ' ' ∉ W₁) (hs2 : ' ' ∉ W₂)
    (a b : List Char) (h : W₁ ++ ' ' :: W₂ <:+: a ++ ' ' :: b) :
    W₁ ++ ' ' :: W₂ <:+: a ∨ W₁ ++ ' ' :: W₂ <:+: b ∨ W₁ <:+ a := by
  induction a with
  | nil =>
    rcases List.infix_cons_iff.1 h with hp | hi
    · rcases prefix_across_space W₂ hs2 W₁ hs1 [] b hp with h1 | ⟨h2, _⟩
      · exact Or.inl h1.isInfix
      · exact Or.inr (Or.inr (h2 ▸ List.suffix_refl _))
    · exact Or.inr (Or.inl hi)
  | cons c a ih =>
    rw [List.cons_append] at h
    rcases List.infix_cons_iff.1 h with hp | hi
    · rcases prefix_across_space W₂ hs2 W₁ hs1 (c :: a) b hp with h1 | ⟨h2, _⟩
      · exact Or.inl h1.isInfix
      · exact Or.inr (Or.inr (h2 ▸ List.suffix_refl _))
    · rcases ih hi with h1 | h2 | h3
      · exact Or.inl (List.IsInfix.trans h1 (List.suffix_cons _ _).isInfix)
      · exact Or.inr (Or.inl h2)
      · exact Or.inr (Or.inr (List.IsSuffix.trans h3 (List.suffix_cons _ _)))

theorem Clear.across_space {W₁ W₂ a b : List Char} (hs1 : ' ' ∉ W₁) (hs2 : ' ' ∉ W₂)
    (ha : Clear W₁ (W₁ ++ ' ' :: W₂) a) (hb : Clear W₁ (W₁ ++ ' ' :: W₂) b) :
    Clear W₁ (W₁ ++ ' ' :: W₂) (a ++ ' ' :: b) := by
  refine ⟨fun h => ?_, fun h => hb.2 (suffix_of_suffix_delim ' ' W₁ hs1 a b h)⟩
  rcases infix_across_space W₁ W₂ hs1 hs2 a b h with h1 | h2 | h3
  · exact ha.1 h1
  · exact hb.1 h2
  · exact ha.2 h3

theorem Clear.foreign {W₁ W₂ a b : List Char} (hne : W₁ ≠ [])
    (ha : Clear W₁ (W₁ ++ ' ' :: W₂) a) (hb : ∀ c ∈ b, c ∉ W₁ ++ ' ' :: W₂) :
    Clear W₁ (W₁ ++ ' ' :: W₂) (a ++ b) := by
  refine ⟨fun h => ha.1 (infix_of_infix_foreign _ (by simp) a b hb h), fun h => ?_⟩
  induction b using List.reverseRecOn with
  | nil => exact ha.2 (by simpa using h)
  | append_singleton b d _ =>
    have hd : d ∉ W₁ := fun hm => hb d (by simp) (List.mem_append_left _ hm)
    have h' : W₁ <:+ (a ++ b) ++ d :: [] := by simpa using h
    exact hne (List.eq_nil_of_suffix_nil (suffix_of_suffix_delim d W₁ hd _ _ h'))

theorem Clear.quoted {W₁ W₂ a : List Char} (hne : W₁ ≠ [])
    (hq : '\'' ∉ W₁ ++ ' ' :: W₂) (ha : ¬ W₁ ++ ' ' :: W₂ <:+: a) :
    Clear W₁ (W₁ ++ ' ' :: W₂) ('\'' :: (a ++ ['\''])) := by
  have hd : '\'' ∉ W₁ := fun hm => hq (List.mem_append_left _ hm)
  refine ⟨fun h => ?_, fun h => ?_⟩
  · rcases infix_of_infix_delim '\'' _ hq [] (a ++ ['\'']) (by simpa using h) with h1 | h2
    · exact absurd (List.eq_nil_of_infix_nil h1) (by simp)
    · exact ha (infix_of_infix_foreign _ (by simp) a ['\'']
        (fun c hc => by simp only [List.mem_singleton] at hc; exact hc ▸ hq) h2)
  · have h' : W₁ <:+ ('\'' :: a) ++ '\'' :: [] := by simpa using h
    exact hne (List.eq_nil_of_suffix_nil (suffix_of_suffix_delim '\'' W₁ hd _ _ h'))

theorem Clear.of_joined {W₁ W₂ : List Char} (hs1 : ' ' ∉ W₁) (hs2 : ' ' ∉ W₂)
    (l : List String) (hl : l ≠ [])
    (h : ∀ s ∈ l, Clear W₁ (W₁ ++ ' ' :: W₂) s.data) :
    Clear W₁ (W₁ ++ ' ' :: W₂) (Join l " ").data := by
  induction l with
  | nil => exact absurd rfl hl
  | cons a l ih =>
    cases l with
    | nil => exact h a (List.mem_cons_self _ _)
    | cons b l =>
      rw [Join_cons_cons, String.data_append, String.data_append]
      exact Clear.across_space hs1 hs2 (h a (List.mem_cons_self _ _))
        (ih (List.cons_ne_nil _ _) (fun s hs => h s (List.mem_cons_of_mem _ hs)))

theorem mem_lengthSuffix_foreign (T : List Char)
    (hf : ∀ c ∈ "-0123456789(),".data, c ∉ T) (length decimal : Int) :
    ∀ c ∈ (lengthSuffix length decimal).data, c ∉ T := by
  intro c hc hT
  by_cases hm : c ∈ "-0123456789(),".data
  · exact hf c hm hT
  · exact not_mem_lengthSuffix c hm length decimal hc

/-- The join of the tokens of a column fragment is clear of `W₁ ␣ W₂` when the keyword,
the keywords of the emitted clauses and the emitted arguments are. -/
theorem clear_columnTokens (W₁ W₂ : List Char) (hs1 : ' ' ∉ W₁) (hs2 : ' ' ∉ W₂)
    (hne : W₁ ≠ []) (hf : ∀ c ∈ "-0123456789(),".data, c ∉ W₁ ++ ' ' :: W₂)
    (keyword : String) (hkw : Clear W₁ (W₁ ++ ' ' :: W₂) keyword.data)
    (columnName _type : String) (length decimal : Int)
    (charset : String) (notNULL : Bool) (_default comment : String)
    (hname : columnName ≠ "" → Clear W₁ (W₁ ++ ' ' :: W₂) columnName.data)
    (htype : _type ≠ "" → Clear W₁ (W₁ ++ ' ' :: W₂) _type.data)
    (hC : charset ≠ "" → Clear W₁ (W₁ ++ ' ' :: W₂) "CHARACTER".data ∧
      Clear W₁ (W₁ ++ ' ' :: W₂) charset.data)
    (hN : notNULL = true → Clear W₁ (W₁ ++ ' ' :: W₂) "NOT NULL".data)
    (hD : _default ≠ "" → Clear W₁ (W₁ ++ ' ' :: W₂) "DEFAULT".data ∧
      Clear W₁ (W₁ ++ ' ' :: W₂) _default.data)
    (hM : comment ≠ "" → Clear W₁ (W₁ ++ ' ' :: W₂) "COMMENT".data ∧
      '\'' ∉ W₁ ++ ' ' :: W₂ ∧ ¬ W₁ ++ ' ' :: W₂ <:+: comment.data) :
    Clear W₁ (W₁ ++ ' ' :: W₂)
      (Join (columnTokens keyword columnName _type length decimal charset notNULL
        _default comment) " ").data := by
  apply Clear.of_joined hs1 hs2 _ (by simp [columnTokens])
  intro s hs
  rcases mem_columnTokens_strict _ _ _ _ _ _ _ _ _ _ hs with
    rfl | ⟨h0, rfl⟩ | ⟨h0, rfl⟩ | ⟨h0, rfl⟩ | ⟨h0, rfl⟩ | ⟨h0, rfl⟩ | ⟨h0, rfl⟩
  · exact hkw
  · exact hname h0
  · rw [String.data_append]
    exact Clear.foreign hne (htype h0) (mem_lengthSuffix_foreign _ hf length decimal)
  · have e : ("CHARACTER " ++ charset).data = "CHARACTER".data ++ ' ' :: charset.data := by
      rw [String.data_append]; rfl
    rw [e]
    exact Clear.across_space hs1 hs2 (hC h0).1 (hC h0).2
  · exact hN h0
  · have e : ("DEFAULT " ++ _default).data = "DEFAULT".data ++ ' ' :: _default.data := by
      rw [String.data_append]; rfl
    rw [e]
    exact Clear.across_space hs1 hs2 (hD h0).1 (hD h0).2
  · have e : ("COMMENT '" ++ comment ++ "'").data
        = "COMMENT".data ++ ' ' :: ('\'' :: (comment.data ++ ['\''])) := by
      rw [String.data_append, String.data_append]; rfl
    rw [e]
    exact Clear.across_space hs1 hs2 (hM h0).1 (Clear.quoted hne (hM h0).2.1 (hM h0).2.2)

theorem Clear.of_string {W₁ W₂ : List Char} (s w t : String)
    (hw : w.data = W₁) (ht : t.data = W₁ ++ ' ' :: W₂)
    (h1 : ¬ Contains s t) (h2 : ¬ EndsWith s w) :
    Clear W₁ (W₁ ++ ' ' :: W₂) s.data := by
  unfold Contains at h1
  unfold EndsWith at h2
  rw [ht] at h1
  rw [hw] at h2
  exact ⟨h1, h2⟩

/-- With the clause of a token absent, the join of the tokens of a column fragment does
not contain the token when no emitted argument contains it and none that a space can
follow ends with its keyword. -/
theorem not_contains_clause_token (keyword : String)
    (hkw : keyword = "ADD COLUMN" ∨ keyword = "MODIFY COLUMN")
    (columnName _type : String) (length decimal : Int)
    (charset : String) (notNULL : Bool) (_default comment : String) :
    (charset = "" →
      (∀ s ∈ [columnName, _type, _default, comment], ¬ Contains s "CHARACTER ") →
      (∀ s ∈ [columnName, _type, _default], ¬ EndsWith s "CHARACTER") →
      ¬ Contains (Join (columnTokens keyword columnName _type length decimal charset notNULL
        _default comment) " ") "CHARACTER ") ∧
    (notNULL = false →
      (∀ s ∈ [columnName, _type, charset, _default, comment], ¬ Contains s "NOT NULL") →
      (∀ s ∈ [columnName, _type, charset, _default], ¬ EndsWith s "NOT") →
      ¬ Contains (Join (columnTokens keyword columnName _type length decimal charset notNULL
        _default comment) " ") "NOT NULL") ∧
    (_default = "" →
      (∀ s ∈ [columnName, _type, charset, comment], ¬ Contains s "DEFAULT ") →
      (∀ s ∈ [columnName, _type, charset], ¬ EndsWith s "DEFAULT") →
      ¬ Contains (Join (columnTokens keyword columnName _type length decimal charset notNULL
        _default comment) " ") "DEFAULT ") ∧
    (comment = "" →
      (∀ s ∈ [columnName, _type, charset, _default], ¬ Contains s "COMMENT '") →
      (∀ s ∈ [columnName, _type, charset, _default], ¬ EndsWith s "COMMENT") →
      ¬ Contains (Join (columnTokens keyword columnName _type length decimal charset notNULL
        _default comment) " ") "COMMENT '") := by
  refine ⟨fun h hc he => ?_, fun h hc he => ?_, fun h hc he => ?_, fun h hc he => ?_⟩
  · have key := clear_columnTokens "CHARACTER".data [] (by decide) (by decide) (by decide)
      (by decide) keyword (by rcases hkw with rfl | rfl <;> decide)
      columnName _type length decimal charset notNULL _default comment
      (fun _ => Clear.of_string _ "CHARACTER" "CHARACTER " rfl rfl (hc _ (by simp))
        (he _ (by simp)))
      (fun _ => Clear.of_string _ "CHARACTER" "CHARACTER " rfl rfl (hc _ (by simp))
        (he _ (by simp)))
      (fun hne => absurd h hne)
      (fun _ => by decide)
      (fun _ => ⟨by decide, Clear.of_string _ "CHARACTER" "CHARACTER " rfl rfl
        (hc _ (by simp)) (he _ (by simp))⟩)
      (fun _ => ⟨by decide, by decide, hc comment (by simp)⟩)
    exact key.1
  · have key := clear_columnTokens "NOT".data "NULL".data (by decide) (by decide) (by decide)
      (by decide) keyword (by rcases hkw with rfl | rfl <;> decide)
      columnName _type length decimal charset notNULL _default comment
      (fun _ => Clear.of_string _ "NOT" "NOT NULL" rfl rfl (hc _ (by simp)) (he _ (by simp)))
      (fun _ => Clear.of_string _ "NOT" "NOT NULL" rfl rfl (hc _ (by simp)) (he _ (by simp)))
      (fun _ => ⟨by decide, Clear.of_string _ "NOT" "NOT NULL" rfl rfl (hc _ (by simp))
        (he _ (by simp))⟩)
      (fun hn => by simp [h] at hn)
      (fun _ => ⟨by decide, Clear.of_string _ "NOT" "NOT NULL" rfl rfl (hc _ (by simp))
        (he _ (by simp))⟩)
      (fun _ => ⟨by decide, by decide, hc comment (by simp)⟩)
    exact key.1
  · have key := clear_columnTokens "DEFAULT".data [] (by decide) (by decide) (by decide)
      (by decide) keyword (by rcases hkw with rfl | rfl <;> decide)
      columnName _type length decimal charset notNULL _default comment
      (fun _ => Clear.of_string _ "DEFAULT" "DEFAULT " rfl rfl (hc _ (by simp))
        (he _ (by simp)))
      (fun _ => Clear.of_string _ "DEFAULT" "DEFAULT " rfl rfl (hc _ (by simp))
        (he _ (by simp)))
      (fun _ => ⟨by decide, Clear.of_string _ "DEFAULT" "DEFAULT " rfl rfl (hc _ (by simp))
        (he _ (by simp))⟩)
      (fun _ => by decide)
      (fun hne => absurd h hne)
      (fun _ => ⟨by decide, by decide, hc comment (by simp)⟩)
    exact key.1
  · have key := clear_columnTokens "COMMENT".data "'".data (by decide) (by decide) (by decide)
      (by decide) keyword (by rcases hkw with rfl | rfl <;> decide)
      columnName _type length decimal charset notNULL _default comment
      (fun _ => Clear.of_string _ "COMMENT" "COMMENT '" rfl rfl (hc _ (by simp))
        (he _ (by simp)))
      (fun _ => Clear.of_string _ "COMMENT" "COMMENT '" rfl rfl (hc _ (by simp))
        (he _ (by simp)))
      (fun _ => ⟨by decide, Clear.of_string _ "COMMENT" "COMMENT '" rfl rfl (hc _ (by simp))
        (he _ (by simp))⟩)
      (fun _ => by decide)
      (fun _ => ⟨by decide, Clear.of_string _ "COMMENT" "COMMENT '" rfl rfl (hc _ (by simp))
        (he _ (by simp))⟩)
      (fun hne => absurd h hne)
    exact key.1

/-! ## The optional clauses -/

/-- Every optional clause whose input is not the zero value occurs in the join of the
token sequence of a column fragment. -/
theorem optional_clauses_of_tokens (keyword columnName _type : String)
    (length decimal : Int) (charset : String) (notNULL : Bool) (_default comment : String) :
    (charset ≠ "" →
      Contains (Join (columnTokens keyword columnName _type length decimal charset notNULL
        _default comment) " ") ("CHARACTER " ++ charset)) ∧
    (notNULL = true →
      Contains (Join (columnTokens keyword columnName _type length decimal charset notNULL
        _default comment) " ") "NOT NULL") ∧
    (_default ≠ "" →
      Contains (Join (columnTokens keyword columnName _type length decimal charset notNULL
        _default comment) " ") ("DEFAULT " ++ _default)) ∧
    (comment ≠ "" →
      Contains (Join (columnTokens keyword columnName _type length decimal charset notNULL
        _default comment) " ") ("COMMENT '" ++ comment ++ "'")) := by
  refine ⟨fun h => ?_, fun h => ?_, fun h => ?_, fun h => ?_⟩
  · exact Contains_Join_of_mem _ _ _ (by simp [columnTokens, optionalClauses, h])
  · exact Contains_Join_of_mem _ _ _ (by simp [columnTokens, optionalClauses, h])
  · exact Contains_Join_of_mem _ _ _ (by simp [columnTokens, optionalClauses, h])
  · exact Contains_Join_of_mem _ _ _ (by simp [columnTokens, optionalClauses, h])

theorem infix_across_space_iff (W₁ W₂ : List Char) (hs1 : ' ' ∉ W₁) (hs2 : ' ' ∉ W₂)
    (a b : List Char) :
    W₁ ++ ' ' :: W₂ <:+: a ++ ' ' :: b ↔
      W₁ ++ ' ' :: W₂ <:+: a ∨ W₁ ++ ' ' :: W₂ <:+: b ∨ (W₁ <:+ a ∧ W₂ <+: b) := by
  constructor
  · intro h
    induction a with
    | nil =>
      rcases List.infix_cons_iff.1 h with hp | hi
      · rcases prefix_across_space W₂ hs2 W₁ hs1 [] b hp with h1 | ⟨h2, h3⟩
        · exact Or.inl h1.isInfix
        · exact Or.inr (Or.inr ⟨h2 ▸ List.suffix_refl _, h3⟩)
      · exact Or.inr (Or.inl hi)
    | cons c a ih =>
      rw [List.cons_append] at h
      rcases List.infix_cons_iff.1 h with hp | hi
      · rcases prefix_across_space W₂ hs2 W₁ hs1 (c :: a) b hp with h1 | ⟨h2, h3⟩
        · exact Or.inl h1.isInfix
        · exact Or.inr (Or.inr ⟨h2 ▸ List.suffix_refl _, h3⟩)
      · rcases ih hi with h1 | h2 | ⟨h3, h4⟩
        · exact Or.inl (List.IsInfix.trans h1 (List.suffix_cons _ _).isInfix)
        · exact Or.inr (Or.inl h2)
        · exact Or.inr (Or.inr ⟨List.IsSuffix.trans h3 (List.suffix_cons _ _), h4⟩)
  · rintro (h | h | ⟨⟨p, hp⟩, ⟨q, hq⟩⟩)
    · exact List.IsInfix.trans h (List.prefix_append _ _).isInfix
    · exact List.IsInfix.trans h
        (List.IsSuffix.trans (List.suffix_cons _ _) (List.suffix_append _ _)).isInfix
    · refine ⟨p, q, ?_⟩
      rw [← hp, ← hq]
      simp

theorem prefix_Join_cons (W : List Char) (hs : ' ' ∉ W) (b : String) (rest : List String) :
    W <+: (Join (b :: rest) " ").data ↔ W <+: b.data := by
  cases rest with
  | nil => rfl
  | cons c rest =>
    rw [Join_cons_cons, String.data_append, String.data_append]
    exact ⟨fun h => prefix_of_prefix_delim ' ' W hs _ _ h,
      fun h => List.IsPrefix.trans h (List.prefix_append _ _)⟩

/-- A text `w₁ ␣ w₂`, with no space in `w₁` and `w₂`, occurs in the join of `l` exactly
when `l` supplies it. -/
theorem contains_Join_iff (w₁ w₂ : String) (hs1 : ' ' ∉ w₁.data) (hs2 : ' ' ∉ w₂.data)
    (l : List String) :
    Contains (Join l " ") (w₁ ++ " " ++ w₂) ↔ Supplied w₁ w₂ l := by
  have hT : (w₁ ++ " " ++ w₂).data = w₁.data ++ ' ' :: w₂.data := by
    rw [String.data_append, String.data_append]
    simp
  unfold Supplied Contains
  simp only [hT]
  induction l with
  | nil =>
    simp only [Join, List.not_mem_nil, false_and, exists_false, straddles, false_or,
      Bool.false_eq_true, iff_false]
    intro h
    have := List.eq_nil_of_infix_nil h
    simp at this
  | cons a l ih =>
    cases l with
    | nil =>
      simp [Join_singleton, straddles]
    | cons b l =>
      rw [Join_cons_cons, String.data_append, String.data_append]
      have hsp : (" " : String).data = [' '] := rfl
      rw [hsp, List.singleton_append, infix_across_space_iff _ _ hs1 hs2,
        prefix_Join_cons _ hs2]
      have ih' := ih
      simp only [List.mem_cons, exists_eq_or_imp, straddles, Bool.or_eq_true,
        Bool.and_eq_true, decide_eq_true_eq] at ih' ⊢
      obtain ⟨ih1, ih2⟩ := ih'
      constructor
      · rintro (h | h | h)
        · exact Or.inl (Or.inl h)
        · rcases ih1 h with (h' | h') | h'
          · exact Or.inl (Or.inr (Or.inl h'))
          · exact Or.inl (Or.inr (Or.inr h'))
          · exact Or.inr (Or.inr h')
        · exact Or.inr (Or.inl h)
      · rintro ((h | h | h) | h | h)
        · exact Or.inl h
        · exact Or.inr (Or.inl (ih2 (Or.inl (Or.inl h))))
        · exact Or.inr (Or.inl (ih2 (Or.inl (Or.inr h))))
        · exact Or.inr (Or.inr h)
        · exact Or.inr (Or.inl (ih2 (Or.inr h)))

theorem columnTokens_eq (keyword columnName _type : String) (length decimal : Int)
    (charset : String) (notNULL : Bool) (_default comment : String) :
    columnTokens keyword columnName _type length decimal charset notNULL _default comment
      = keyword :: argumentTokens columnName _type length decimal charset notNULL _default
          comment := by
  simp [columnTokens, argumentTokens]

theorem Supplied_cons_clear (w₁ w₂ k : String) (l : List String)
    (h1 : ¬ Contains k (w₁ ++ " " ++ w₂)) (h2 : ¬ w₁.data <:+ k.data) :
    Supplied w₁ w₂ (k :: l) ↔ Supplied w₁ w₂ l := by
  unfold Supplied
  cases l with
  | nil => simp [straddles, h1]
  | cons s l => simp [straddles, h1, h2]

/-- The join of the token sequence of a column fragment contains a clause token exactly
when the tokens after the keyword supply it. -/
theorem contains_columnTokens_iff (w₁ w₂ keyword : String)
    (hs1 : ' ' ∉ w₁.data) (hs2 : ' ' ∉ w₂.data)
    (h1 : ¬ Contains keyword (w₁ ++ " " ++ w₂)) (h2 : ¬ w₁.data <:+ keyword.data)
    (columnName _type : String) (length decimal : Int)
    (charset : String) (notNULL : Bool) (_default comment : String) :
    Contains (Join (columnTokens keyword columnName _type length decimal charset notNULL
        _default comment) " ") (w₁ ++ " " ++ w₂) ↔
      Supplied w₁ w₂ (argumentTokens columnName _type length decimal charset notNULL
        _default comment) := by
  rw [columnTokens_eq, contains_Join_iff w₁ w₂ hs1 hs2, Supplied_cons_clear w₁ w₂ _ _ h1 h2]

/-- A clause token occurs in the join of the token sequence of a column fragment exactly
when the clause's input is not the zero value or the other tokens supply it. -/
theorem clause_token_iff (keyword : String)
    (hkw : keyword = "ADD COLUMN" ∨ keyword = "MODIFY COLUMN")
    (columnName _type : String) (length decimal : Int)
    (charset : String) (notNULL : Bool) (_default comment : String) :
    (Contains (Join (columnTokens keyword columnName _type length decimal charset notNULL
        _default comment) " ") "CHARACTER " ↔
      charset ≠ "" ∨ Supplied "CHARACTER" ""
        (argumentTokens columnName _type length decimal "" notNULL _default comment)) ∧
    (Contains (Join (columnTokens keyword columnName _type length decimal charset notNULL
        _default comment) " ") "NOT NULL" ↔
      notNULL = true ∨ Supplied "NOT" "NULL"
        (argumentTokens columnName _type length decimal charset false _default comment)) ∧
    (Contains (Join (columnTokens keyword columnName _type length decimal charset notNULL
        _default comment) " ") "DEFAULT " ↔
      _default ≠ "" ∨ Supplied "DEFAULT" ""
        (argumentTokens columnName _type length decimal charset notNULL "" comment)) ∧
    (Contains (Join (columnTokens keyword columnName _type length decimal charset notNULL
        _default comment) " ") "COMMENT '" ↔
      comment ≠ "" ∨ Supplied "COMMENT" "'"
        (argumentTokens columnName _type length decimal charset notNULL _default "")) := by
  obtain ⟨f1, f2, f3, f4⟩ :=
    optional_clauses_of_tokens keyword columnName _type length decimal charset notNULL
      _default comment
  have e1 : ("CHARACTER " : String) = "CHARACTER" ++ " " ++ "" := by decide
  have e2 : ("NOT NULL" : String) = "NOT" ++ " " ++ "NULL" := by decide
  have e3 : ("DEFAULT " : String) = "DEFAULT" ++ " " ++ "" := by decide
  have e4 : ("COMMENT '" : String) = "COMMENT" ++ " " ++ "'" := by decide
  have k1 := contains_columnTokens_iff "CHARACTER" "" keyword (by decide) (by decide)
    (by rcases hkw with rfl | rfl <;> decide) (by rcases hkw with rfl | rfl <;> decide)
    columnName _type length decimal charset notNULL _default comment
  have k2 := contains_columnTokens_iff "NOT" "NULL" keyword (by decide) (by decide)
    (by rcases hkw with rfl | rfl <;> decide) (by rcases hkw with rfl | rfl <;> decide)
    columnName _type length decimal charset notNULL _default comment
  have k3 := contains_columnTokens_iff "DEFAULT" "" keyword (by decide) (by decide)
    (by rcases hkw with rfl | rfl <;> decide) (by rcases hkw with rfl | rfl <;> decide)
    columnName _type length decimal charset notNULL _default comment
  have k4 := contains_columnTokens_iff "COMMENT" "'" keyword (by decide) (by decide)
    (by rcases hkw with rfl | rfl <;> decide) (by rcases hkw with rfl | rfl <;> decide)
    columnName _type length decimal charset notNULL _default comment
  rw [← e1] at k1
  rw [← e2] at k2
  rw [← e3] at k3
  rw [← e4] at k4
  refine ⟨?_, ?_, ?_, ?_⟩
  · by_cases h : charset = ""
    · subst h
      rw [k1]
      simp
    · exact ⟨fun _ => Or.inl h,
        fun _ => Contains.trans (f1 h) (List.infix_append' [] _ _)⟩
  · cases notNULL with
    | false =>
      rw [k2]
      simp
    | true => exact ⟨fun _ => Or.inl rfl, fun _ => f2 rfl⟩
  · by_cases h : _default = ""
    · subst h
      rw [k3]
      simp
    · exact ⟨fun _ => Or.inl h,
        fun _ => Contains.trans (f3 h) (List.infix_append' [] _ _)⟩
  · by_cases h : comment = ""
    · subst h
      rw [k4]
      simp
    · refine ⟨fun _ => Or.inl h, fun _ => Contains.trans (f4 h) ?_⟩
      rw [String.append_assoc]
      exact List.infix_append' [] _ _

/-- C10, as stated, fails: with `notNULL = false` and the comment `NOT NULL` the fragment
of `AddColumn` contains `NOT NULL`. -/
theorem AddColumn_contains_unrequested_token :
    (AddColumn testSpec "c1" "int" 0 0 "" false "" "NOT NULL").recv.alter
      = "ADD COLUMN c1 int COMMENT 'NOT NULL'" ∧
    ¬ (Contains (AddColumn testSpec "c1" "int" 0 0 "" false "" "NOT NULL").recv.alter
        "NOT NULL" ↔ false = true) := by
  decide

/-- C10, amended: the fragment of `AddColumn` and of `ModifyColumn` contains each optional
clause whose input is not the zero value: `CHARACTER ` and the charset, `NOT NULL`,
`DEFAULT ` and the default, the quoted comment after `COMMENT `.  It contains the token
of a clause exactly when that clause's input is not the zero value or the other tokens
after the keyword, which carry the arguments verbatim, supply the text: one of them
contains the token, or one ends with the token's keyword (`CHARACTER`, `NOT`, `DEFAULT`,
`COMMENT`) and the next begins with the rest of the token.  So the token occurs exactly
when the input is not the zero value wherever no other string argument contains the token
and none of the other arguments that a space can follow (column name, type, charset,
default) ends with the token's keyword. -/
theorem optional_clause_iff (o : orm) (columnName _type : String) (length decimal : Int)
    (charset : String) (notNULL : Bool) (_default comment : String) :
    ∀ a ∈ [(AddColumn o columnName _type length decimal charset notNULL _default
              comment).recv.alter,
           (ModifyColumn o columnName _type length decimal charset notNULL _default
              comment).recv.alter],
      (charset ≠ "" → Contains a ("CHARACTER " ++ charset)) ∧
      (notNULL = true → Contains a "NOT NULL") ∧
      (_default ≠ "" → Contains a ("DEFAULT " ++ _default)) ∧
      (comment ≠ "" → Contains a ("COMMENT '" ++ comment ++ "'")) ∧
      (Contains a "CHARACTER " ↔
        charset ≠ "" ∨ Supplied "CHARACTER" ""
          (argumentTokens columnName _type length decimal "" notNULL _default comment)) ∧
      (Contains a "NOT NULL" ↔
        notNULL = true ∨ Supplied "NOT" "NULL"
          (argumentTokens columnName _type length decimal charset false _default comment)) ∧
      (Contains a "DEFAULT " ↔
        _default ≠ "" ∨ Supplied "DEFAULT" ""
          (argumentTokens columnName _type length decimal charset notNULL "" comment)) ∧
      (Contains a "COMMENT '" ↔
        comment ≠ "" ∨ Supplied "COMMENT" "'"
          (argumentTokens columnName _type length decimal charset notNULL _default "")) ∧
      ((∀ s ∈ [columnName, _type, _default, comment], ¬ Contains s "CHARACTER ") →
        (∀ s ∈ [columnName, _type, _default], ¬ EndsWith s "CHARACTER") →
        (Contains a "CHARACTER " ↔ charset ≠ "")) ∧
      ((∀ s ∈ [columnName, _type, charset, _default, comment], ¬ Contains s "NOT NULL") →
        (∀ s ∈ [columnName, _type, charset, _default], ¬ EndsWith s "NOT") →
        (Contains a "NOT NULL" ↔ notNULL = true)) ∧
      ((∀ s ∈ [columnName, _type, charset, comment], ¬ Contains s "DEFAULT ") →
        (∀ s ∈ [columnName, _type, charset], ¬ EndsWith s "DEFAULT") →
        (Contains a "DEFAULT " ↔ _default ≠ "")) ∧
      ((∀ s ∈ [columnName, _type, charset, _default], ¬ Contains s "COMMENT '") →
        (∀ s ∈ [columnName, _type, charset, _default], ¬ EndsWith s "COMMENT") →
        (Contains a "COMMENT '" ↔ comment ≠ "")) := by
  have key : ∀ keyword, keyword = "ADD COLUMN" ∨ keyword = "MODIFY COLUMN" →
      ∀ a, a = Join (columnTokens keyword columnName _type length decimal charset notNULL
        _default comment) " " →
      (charset ≠ "" → Contains a ("CHARACTER " ++ charset)) ∧
      (notNULL = true → Contains a "NOT NULL") ∧
      (_default ≠ "" → Contains a ("DEFAULT " ++ _default)) ∧
      (comment ≠ "" → Contains a ("COMMENT '" ++ comment ++ "'")) ∧
      (Contains a "CHARACTER " ↔
        charset ≠ "" ∨ Supplied "CHARACTER" ""
          (argumentTokens columnName _type length decimal "" notNULL _default comment)) ∧
      (Contains a "NOT NULL" ↔
        notNULL = true ∨ Supplied "NOT" "NULL"
          (argumentTokens columnName _type length decimal charset false _default comment)) ∧
      (Contains a "DEFAULT " ↔
        _default ≠ "" ∨ Supplied "DEFAULT" ""
          (argumentTokens columnName _type length decimal charset notNULL "" comment)) ∧
      (Contains a "COMMENT '" ↔
        comment ≠ "" ∨ Supplied "COMMENT" "'"
          (argumentTokens columnName _type length decimal charset notNULL _default "")) ∧
      ((∀ s ∈ [columnName, _type, _default, comment], ¬ Contains s "CHARACTER ") →
        (∀ s ∈ [columnName, _type, _default], ¬ EndsWith s "CHARACTER") →
        (Contains a "CHARACTER " ↔ charset ≠ "")) ∧
      ((∀ s ∈ [columnName, _type, charset, _default, comment], ¬ Contains s "NOT NULL") →
        (∀ s ∈ [columnName, _type, charset, _default], ¬ EndsWith s "NOT") →
        (Contains a "NOT NULL" ↔ notNULL = true)) ∧
      ((∀ s ∈ [columnName, _type, charset, comment], ¬ Contains s "DEFAULT ") →
        (∀ s ∈ [columnName, _type, charset], ¬ EndsWith s "DEFAULT") →
        (Contains a "DEFAULT " ↔ _default ≠ "")) ∧
      ((∀ s ∈ [columnName, _type, charset, _default], ¬ Contains s "COMMENT '") →
        (∀ s ∈ [columnName, _type, charset, _default], ¬ EndsWith s "COMMENT") →
        (Contains a "COMMENT '" ↔ comment ≠ "")) := by
    rintro keyword hkw a rfl
    obtain ⟨f1, f2, f3, f4⟩ :=
      optional_clauses_of_tokens keyword columnName _type length decimal charset notNULL
        _default comment
    obtain ⟨x1, x2, x3, x4⟩ :=
      clause_token_iff keyword hkw columnName _type length decimal charset notNULL
        _default comment
    obtain ⟨b1, b2, b3, b4⟩ :=
      not_contains_clause_token keyword hkw columnName _type length decimal charset notNULL
        _default comment
    refine ⟨f1, f2, f3, f4, x1, x2, x3, x4, fun hc he => ⟨fun h => ?_, fun h => ?_⟩,
      fun hc he => ⟨fun h => ?_, fun h => f2 h⟩,
      fun hc he => ⟨fun h => ?_, fun h => ?_⟩, fun hc he => ⟨fun h => ?_, fun h => ?_⟩⟩
    · exact fun e => b1 e hc he h
    · exact Contains.trans (f1 h) (List.infix_append' [] _ _)
    · cases hn : notNULL with
      | true => rfl
      | false => exact absurd h (b2 hn hc he)
    · exact fun e => b3 e hc he h
    · exact Contains.trans (f3 h) (List.infix_append' [] _ _)
    · exact fun e => b4 e hc he h
    · refine Contains.trans (f4 h) ?_
      rw [String.append_assoc]
      exact List.infix_append' [] _ _
  intro a ha
  simp only [List.mem_cons, List.mem_singleton, List.not_mem_nil, or_false] at ha
  rcases ha with rfl | rfl
  · exact key "ADD COLUMN" (Or.inl rfl) _ (AddColumn_alter _ _ _ _ _ _ _ _ _)
  · exact key "MODIFY COLUMN" (Or.inr rfl) _ (ModifyColumn_alter _ _ _ _ _ _ _ _ _)

/-- C10, amended, on two inputs: with an upper-case type and the default `NULL` the
fragment does not contain `NOT NULL`, not requested, and contains `DEFAULT NULL`; with
the column name `NOT` and the type `int` no token supplies `NOT NULL` either. -/
theorem optional_clause_iff_witness :
    (∀ s ∈ ["c1", "DECIMAL", "", "NULL", ""], ¬ Contains s "NOT NULL") ∧
    (∀ s ∈ ["c1", "DECIMAL", "", "NULL"], ¬ EndsWith s "NOT") ∧
    (AddColumn testSpec "c1" "DECIMAL" 10 3 "" false "NULL" "").recv.alter
      = "ADD COLUMN c1 DECIMAL(10,3) DEFAULT NULL" ∧
    ¬ Contains (AddColumn testSpec "c1" "DECIMAL" 10 3 "" false "NULL" "").recv.alter
      "NOT NULL" ∧
    Contains (AddColumn testSpec "c1" "DECIMAL" 10 3 "" false "NULL" "").recv.alter
      "DEFAULT NULL" ∧
    (AddColumn testSpec "NOT" "int" 0 0 "" false "" "").recv.alter = "ADD COLUMN NOT int" ∧
    ¬ Supplied "NOT" "NULL" (argumentTokens "NOT" "int" 0 0 "" false "" "") ∧
    ¬ Contains (AddColumn testSpec "NOT" "int" 0 0 "" false "" "").recv.alter "NOT NULL" :=
  ⟨by decide, by decide, by decide,
    fun h => Bool.false_ne_true
      (((optional_clause_iff testSpec "c1" "DECIMAL" 10 3 "" false "NULL" ""
        (AddColumn testSpec "c1" "DECIMAL" 10 3 "" false "NULL" "").recv.alter
        (by simp)).2.2.2.2.2.2.2.2.2.1 (by decide) (by decide)).1 h),
    (optional_clause_iff testSpec "c1" "DECIMAL" 10 3 "" false "NULL" ""
      (AddColumn testSpec "c1" "DECIMAL" 10 3 "" false "NULL" "").recv.alter
      (by simp)).2.2.1 (by decide),
    by decide, by decide,
    fun h =>
      (((optional_clause_iff testSpec "NOT" "int" 0 0 "" false "" ""
        (AddColumn testSpec "NOT" "int" 0 0 "" false "" "").recv.alter
        (by simp)).2.2.2.2.2.1).1 h).elim (fun e => Bool.false_ne_true e)
        (fun e => absurd e (by decide))⟩

/-! ## The index keyword -/

theorem tails_count_nil (T : List Char) (hT : T ≠ []) :
    (([] : List Char).tails.filter fun t => T <+: t).length = 0 := by
  simp [List.tails, hT]

/-- No occurrence of `T` starts within `a` when `a` is followed by `b`. -/
theorem tails_count_skip (T a b : List Char)
    (h : ∀ x, x <:+ a → x ≠ [] → ¬ T <+: x ++ b) :
    ((a ++ b).tails.filter fun t => T <+: t).length
      = (b.tails.filter fun t => T <+: t).length := by
  induction a with
  | nil => rfl
  | cons c a ih =>
    rw [List.cons_append, tails_filter_cons, if_neg, Nat.zero_add]
    · exact ih (fun x hx hne => h x (List.IsSuffix.trans hx (List.suffix_cons _ _)) hne)
    · exact h (c :: a) (List.suffix_refl _) (List.cons_ne_nil _ _)

theorem tails_count_eq_zero (T l : List Char) (hT : T ≠ []) (h : ¬ T <:+: l) :
    (l.tails.filter fun t => T <+: t).length = 0 := by
  have := tails_count_skip T l [] (fun x hx _ hp => h (by
    rw [List.append_nil] at hp
    exact List.infix_iff_prefix_suffix.2 ⟨x, hp, hx⟩))
  rw [List.append_nil] at this
  rw [this, tails_count_nil T hT]

theorem tails_count_skip_chars (t : Char) (T a b : List Char) (h : ∀ c ∈ a, c ≠ t) :
    ((a ++ b).tails.filter fun x => t :: T <+: x).length
      = (b.tails.filter fun x => t :: T <+: x).length := by
  apply tails_count_skip
  intro x hx hne hp
  cases x with
  | nil => exact hne rfl
  | cons c x =>
    rw [List.cons_append] at hp
    have hc : t = c := (List.cons_prefix_cons.1 hp).1
    exact h c (hx.subset (List.mem_cons_self _ _)) hc.symm

theorem tails_count_skip_delim (d : Char) (T a b : List Char) (hd : d ∉ T)
    (h : ¬ T <:+: a) :
    ((a ++ d :: b).tails.filter fun t => T <+: t).length
      = ((d :: b).tails.filter fun t => T <+: t).length := by
  apply tails_count_skip
  intro x hx _ hp
  exact h (List.IsInfix.trans (prefix_of_prefix_delim d T hd x b hp).isInfix hx.isInfix)

theorem tails_count_skip_clear (W₁ W₂ a b : List Char) (hs1 : ' ' ∉ W₁) (hs2 : ' ' ∉ W₂)
    (h : Clear W₁ (W₁ ++ ' ' :: W₂) a) :
    ((a ++ ' ' :: b).tails.filter fun t => W₁ ++ ' ' :: W₂ <+: t).length
      = ((' ' :: b).tails.filter fun t => W₁ ++ ' ' :: W₂ <+: t).length := by
  apply tails_count_skip
  intro x hx _ hp
  rcases prefix_across_space W₂ hs2 W₁ hs1 x b hp with h1 | ⟨h2, _⟩
  · exact h.1 (List.IsInfix.trans h1.isInfix hx.isInfix)
  · exact h.2 (h2 ▸ hx)

theorem tails_count_mono (T S l : List Char) :
    (l.tails.filter fun t => T ++ S <+: t).length
      ≤ (l.tails.filter fun t => T <+: t).length := by
  apply List.Sublist.length_le
  apply List.monotone_filter_right
  intro t ht
  simp only [decide_eq_true_eq] at ht ⊢
  exact List.IsPrefix.trans (List.prefix_append T S) ht

theorem not_infix_Join (T : List Char) (hT : T ≠ []) (d : Char) (hd : d ∉ T)
    (sep : String) (hsep : sep.data = [d])
    (l : List String) (h : ∀ s ∈ l, ¬ T <:+: s.data) : ¬ T <:+: (Join l sep).data := by
  induction l with
  | nil =>
    intro hi
    exact hT (List.eq_nil_of_infix_nil hi)
  | cons a l ih =>
    cases l with
    | nil => exact h a (List.mem_cons_self _ _)
    | cons b l =>
      rw [Join_cons_cons, String.data_append, String.data_append, hsep]
      intro hi
      rcases infix_of_infix_delim d T hd _ _ hi with h1 | h2
      · exact h a (List.mem_cons_self _ _) h1
      · exact ih (fun s hs => h s (List.mem_cons_of_mem _ hs)) h2

/-- The characters of the fragment of `AddIndex`, piece by piece. -/
theorem AddIndex_data (o : orm) (indexName indexType indexMethod : String)
    (columns : List String) (h : columns ≠ []) :
    (AddIndex o indexName indexType indexMethod columns).recv.alter.data
      = (if indexType = "" then "ADD".data else "ADD".data ++ ' ' :: indexType.data) ++
          ' ' :: ("INDEX ".data ++ (indexName.data ++ '(' :: ((Join columns ",").data ++
            ')' :: (if indexMethod = "" then []
              else ' ' :: ("USING".data ++ ' ' :: indexMethod.data))))) := by
  have hlen : ¬ columns.length = 0 := by
    cases columns with
    | nil => exact absurd rfl h
    | cons a l => simp
  simp only [AddIndex, hlen, if_false, Outcome.recv]
  by_cases ht : indexType = "" <;> by_cases hm : indexMethod = "" <;>
    simp [ht, hm, String.data_append]

theorem tails_count_cons_ne (t c : Char) (T l : List Char) (h : c ≠ t) :
    ((c :: l).tails.filter fun x => t :: T <+: x).length
      = (l.tails.filter fun x => t :: T <+: x).length := by
  rw [tails_filter_cons, if_neg, Nat.zero_add]
  intro hp
  exact h (List.cons_prefix_cons.1 hp).1.symm

/-- A prefix `W₁ ␣ W₂` of `x ␣ b`, with no space in `W₁`, either has `W₁ ␣` inside `x` or
has `W₁ = x` and `W₂` at the start of `b`. -/
theorem prefix_across_space_left (W₂ : List Char) :
    ∀ (W₁ : List Char), ' ' ∉ W₁ → ∀ x b : List Char,
      W₁ ++ ' ' :: W₂ <+: x ++ ' ' :: b →
      W₁ ++ [' '] <+: x ∨ (W₁ = x ∧ W₂ <+: b) := by
  intro W₁
  induction W₁ with
  | nil =>
    intro _ x b h
    cases x with
    | nil => exact Or.inr ⟨rfl, (List.cons_prefix_cons.1 h).2⟩
    | cons c x =>
      rw [List.nil_append] at h
      rw [List.cons_append] at h
      have hc := (List.cons_prefix_cons.1 h).1
      exact Or.inl (List.cons_prefix_cons.2 ⟨hc, List.nil_prefix⟩)
  | cons w W₁ ih =>
    intro hs x b h
    have hw : w ≠ ' ' := fun e => hs (e ▸ List.mem_cons_self _ _)
    have hs' : ' ' ∉ W₁ := fun hm => hs (List.mem_cons_of_mem _ hm)
    cases x with
    | nil =>
      rw [List.cons_append, List.nil_append] at h
      exact absurd (List.cons_prefix_cons.1 h).1 hw
    | cons c x =>
      rw [List.cons_append, List.cons_append] at h
      obtain ⟨hc, hr⟩ := List.cons_prefix_cons.1 h
      rcases ih hs' x b hr with h1 | ⟨h2, h3⟩
      · exact Or.inl (by rw [List.cons_append]; exact List.cons_prefix_cons.2 ⟨hc, h1⟩)
      · exact Or.inr ⟨by rw [hc, h2], h3⟩

/-- The text `INDEX ` does not occur after the first letter of the keyword in
`INDEX ␣ name ( J ) U` when `name` and `J` do not contain it and it does not occur in `U`. -/
theorem index_tail_count (name J U : List Char)
    (hn : ¬ ['I', 'N', 'D', 'E', 'X', ' '] <:+: name)
    (hJ : ¬ ['I', 'N', 'D', 'E', 'X', ' '] <:+: J)
    (hU : (U.tails.filter fun t => ['I', 'N', 'D', 'E', 'X', ' '] <+: t).length = 0) :
    (('N' :: 'D' :: 'E' :: 'X' :: ' ' :: (name ++ '(' :: (J ++ ')' :: U))).tails.filter
      fun t => ['I', 'N', 'D', 'E', 'X', ' '] <+: t).length = 0 := by
  have e2 := tails_count_skip_chars 'I' ['N', 'D', 'E', 'X', ' '] ['N', 'D', 'E', 'X', ' ']
    (name ++ '(' :: (J ++ ')' :: U)) (by decide)
  simp only [List.cons_append, List.nil_append] at e2
  rw [e2, tails_count_skip_delim '(' _ name _ (by decide) hn,
    tails_count_cons_ne 'I' '(' _ _ (by decide),
    tails_count_skip_delim ')' _ J _ (by decide) hJ,
    tails_count_cons_ne 'I' ')' _ _ (by decide), hU]

/-- The text `INDEX ␣ name` occurs once in `P ␣ INDEX ␣ name ( J ) U` when `P`, `name` and
`J` do not contain `INDEX ␣`, it does not occur in `U`, and `P` does not end with `INDEX`
while `name` is a prefix of `INDEX ␣ name`. -/
theorem index_name_count (P name J U : List Char)
    (hP : ¬ ['I', 'N', 'D', 'E', 'X', ' '] <:+: P)
    (hPs : ¬ (['I', 'N', 'D', 'E', 'X'] <:+ P ∧
      name <+: ['I', 'N', 'D', 'E', 'X', ' '] ++ name))
    (hn : ¬ ['I', 'N', 'D', 'E', 'X', ' '] <:+: name)
    (hJ : ¬ ['I', 'N', 'D', 'E', 'X', ' '] <:+: J)
    (hU : (U.tails.filter fun t => ['I', 'N', 'D', 'E', 'X', ' '] <+: t).length = 0) :
    ((P ++ ' ' :: ((['I', 'N', 'D', 'E', 'X', ' '] ++ name) ++
        '(' :: (J ++ ')' :: U))).tails.filter
      fun t => ['I', 'N', 'D', 'E', 'X', ' '] ++ name <+: t).length = 1 := by
  have e1 : ((P ++ ' ' :: ((['I', 'N', 'D', 'E', 'X', ' '] ++ name) ++
        '(' :: (J ++ ')' :: U))).tails.filter
      fun t => ['I', 'N', 'D', 'E', 'X', ' '] ++ name <+: t).length
      = ((' ' :: ((['I', 'N', 'D', 'E', 'X', ' '] ++ name) ++
        '(' :: (J ++ ')' :: U))).tails.filter
      fun t => ['I', 'N', 'D', 'E', 'X', ' '] ++ name <+: t).length := by
    apply tails_count_skip
    intro x hx _ hp
    have hp' : ['I', 'N', 'D', 'E', 'X'] ++ ' ' :: name
        <+: x ++ ' ' :: ((['I', 'N', 'D', 'E', 'X', ' '] ++ name) ++
          '(' :: (J ++ ')' :: U)) := hp
    rcases prefix_across_space_left name ['I', 'N', 'D', 'E', 'X'] (by decide) x _ hp'
      with h1 | ⟨h2, h3⟩
    · exact hP (List.IsInfix.trans h1.isInfix hx.isInfix)
    · refine hPs ⟨h2 ▸ hx, ?_⟩
      exact List.prefix_of_prefix_length_le h3 (List.prefix_append _ _) (by simp; omega)
  have hp : ['I', 'N', 'D', 'E', 'X', ' '] ++ name
      <+: 'I' :: ('N' :: 'D' :: 'E' :: 'X' :: ' ' :: (name ++ '(' :: (J ++ ')' :: U))) :=
    ⟨'(' :: (J ++ ')' :: U), by simp⟩
  have e3 : (('N' :: 'D' :: 'E' :: 'X' :: ' ' :: (name ++ '(' :: (J ++ ')' :: U))).tails.filter
      fun t => ['I', 'N', 'D', 'E', 'X', ' '] ++ name <+: t).length = 0 := by
    have := tails_count_mono ['I', 'N', 'D', 'E', 'X', ' '] name
      ('N' :: 'D' :: 'E' :: 'X' :: ' ' :: (name ++ '(' :: (J ++ ')' :: U)))
    rw [index_tail_count name J U hn hJ hU] at this
    omega
  rw [e1]
  simp only [List.cons_append, List.nil_append, List.append_assoc] at hp e3 ⊢
  rw [tails_count_cons_ne 'I' ' ' _ _ (by decide), tails_filter_cons, if_pos hp, e3]

/-- The text `INDEX ` followed by the index name occurs once in the fragment of `AddIndex`
when no argument contains `INDEX ` and the index type does not end with `INDEX` while
the index name is a prefix of `INDEX ` followed by itself. -/
theorem AddIndex_name_once (o : orm) (indexName indexType indexMethod : String)
    (columns : List String) (h : columns ≠ [])
    (hc : ∀ s ∈ indexName :: indexType :: indexMethod :: columns, ¬ Contains s "INDEX ")
    (he : ¬ (EndsWith indexType "INDEX" ∧ StartsWith ("INDEX " ++ indexName) indexName)) :
    occurrencesOf ("INDEX " ++ indexName)
      (AddIndex o indexName indexType indexMethod columns).recv.alter = 1 := by
  have c1 : ¬ "INDEX ".data <:+: indexName.data := hc _ (by simp)
  have c2 : ¬ "INDEX ".data <:+: indexType.data := hc _ (by simp)
  have c3 : ¬ "INDEX ".data <:+: indexMethod.data := hc _ (by simp)
  have c4 : ¬ "INDEX ".data <:+: (Join columns ",").data :=
    not_infix_Join _ (by decide) ',' (by decide) "," rfl columns
      (fun s hs => hc s (by simp [hs]))
  have hP : ¬ ['I', 'N', 'D', 'E', 'X', ' ']
      <:+: (if indexType = "" then "ADD".data else "ADD".data ++ ' ' :: indexType.data) := by
    split
    · decide
    · intro hi
      rcases infix_across_space ['I', 'N', 'D', 'E', 'X'] [] (by decide) (by decide)
        "ADD".data indexType.data hi with h1 | h2 | h3
      · exact absurd h1 (by decide)
      · exact c2 h2
      · exact absurd h3 (by decide)
  have hPs : ¬ (['I', 'N', 'D', 'E', 'X']
      <:+ (if indexType = "" then "ADD".data else "ADD".data ++ ' ' :: indexType.data) ∧
      indexName.data <+: ['I', 'N', 'D', 'E', 'X', ' '] ++ indexName.data) := by
    rintro ⟨h1, h2⟩
    apply he
    refine ⟨?_, ?_⟩
    · split at h1
      · exact absurd h1 (by decide)
      · exact suffix_of_suffix_delim ' ' _ (by decide) _ _ h1
    · unfold StartsWith
      rw [String.data_append]
      exact h2
  have hU : ((if indexMethod = "" then []
      else ' ' :: ("USING".data ++ ' ' :: indexMethod.data)).tails.filter
        fun t => ['I', 'N', 'D', 'E', 'X', ' '] <+: t).length = 0 := by
    split
    · exact tails_count_nil _ (by decide)
    · rw [tails_count_cons_ne 'I' ' ' _ _ (by decide)]
      have e := tails_count_skip_clear ['I', 'N', 'D', 'E', 'X'] [] "USING".data
        indexMethod.data (by decide) (by decide) (by decide)
      refine e.trans ?_
      refine (tails_count_cons_ne 'I' ' ' ['N', 'D', 'E', 'X', ' '] _ (by decide)).trans ?_
      exact tails_count_eq_zero _ _ (by decide) c3
  unfold occurrencesOf
  rw [AddIndex_data o _ _ _ _ h, String.data_append]
  have := index_name_count _ indexName.data _ _ hP hPs c1 c4 hU
  simpa [List.append_assoc] using this

/-- C11, amended: with a non-empty column list the fragment of `AddIndex` has, beyond the
occurrences in its arguments themselves, exactly one `(` and one `)`; it contains
`INDEX ` and the index name directly followed by the parenthesised column list; and it has
exactly one occurrence of `INDEX ` followed by the index name when no argument contains
the text `INDEX ` and it is not so that the index type ends with `INDEX` while the index
name is a prefix of `INDEX ` followed by itself (as the empty name is). -/
theorem AddIndex_one_column_list (o : orm) (indexName indexType indexMethod : String)
    (columns : List String) (h : columns ≠ []) :
    occurrences '(' (AddIndex o indexName indexType indexMethod columns).recv.alter
      = ((indexName :: indexType :: indexMethod :: columns).map (occurrences '(')).sum + 1 ∧
    occurrences ')' (AddIndex o indexName indexType indexMethod columns).recv.alter
      = ((indexName :: indexType :: indexMethod :: columns).map (occurrences ')')).sum + 1 ∧
    Contains (AddIndex o indexName indexType indexMethod columns).recv.alter
      ("INDEX " ++ indexName ++ "(" ++ ",".intercalate columns ++ ")") ∧
    ((∀ s ∈ indexName :: indexType :: indexMethod :: columns, ¬ Contains s "INDEX ") →
      ¬ (EndsWith indexType "INDEX" ∧ StartsWith ("INDEX " ++ indexName) indexName) →
      occurrencesOf ("INDEX " ++ indexName)
        (AddIndex o indexName indexType indexMethod columns).recv.alter = 1) := by
  have hlen : ¬ columns.length = 0 := by
    cases columns with
    | nil => exact absurd rfl h
    | cons a l => simp
  have hcontains : Contains (AddIndex o indexName indexType indexMethod columns).recv.alter
      ("INDEX " ++ indexName ++ "(" ++ ",".intercalate columns ++ ")") := by
    simp only [AddIndex, hlen, if_false, Outcome.recv, Join_eq_intercalate]
    by_cases ht : indexType = "" <;> by_cases hm : indexMethod = ""
    · refine ⟨"ADD ".data, [], ?_⟩
      simp [ht, hm, String.data_append]
    · refine ⟨"ADD ".data, (" USING " ++ indexMethod).data, ?_⟩
      simp [ht, hm, String.data_append]
    · refine ⟨("ADD " ++ indexType ++ " ").data, [], ?_⟩
      simp [ht, hm, String.data_append]
    · refine ⟨("ADD " ++ indexType ++ " ").data, (" USING " ++ indexMethod).data, ?_⟩
      simp [ht, hm, String.data_append]
  refine ⟨?_, ?_, hcontains, fun hc he => ?_⟩
  · rw [occurrences_AddIndex '(' (by decide) o _ _ _ _ h]
    have : occurrences '(' " INDEX " = 0 ∧ occurrences '(' "(" = 1 ∧
        occurrences '(' ")" = 0 := by decide
    omega
  · rw [occurrences_AddIndex ')' (by decide) o _ _ _ _ h]
    have : occurrences ')' " INDEX " = 0 ∧ occurrences ')' "(" = 0 ∧
        occurrences ')' ")" = 1 := by decide
    omega
  · exact AddIndex_name_once o indexName indexType indexMethod columns h hc he

/-- C11, amended, on a full-text index, whose arguments hold upper-case letters, and on
an index type that ends with `INDEX`. -/
theorem AddIndex_one_column_list_witness :
    ["body"] ≠ [] ∧
    (∀ s ∈ ["idx_body", "FULLTEXT", "", "body"], ¬ Contains s "INDEX ") ∧
    ¬ (EndsWith "FULLTEXT" "INDEX" ∧ StartsWith ("INDEX " ++ "idx_body") "idx_body") ∧
    (AddIndex testSpec "idx_body" "FULLTEXT" "" ["body"]).recv.alter
      = "ADD FULLTEXT INDEX idx_body(body)" ∧
    occurrencesOf ("INDEX " ++ "idx_body")
      (AddIndex testSpec "idx_body" "FULLTEXT" "" ["body"]).recv.alter = 1 ∧
    (AddIndex testSpec "idx" "UNIQUE INDEX" "" ["c1"]).recv.alter
      = "ADD UNIQUE INDEX INDEX idx(c1)" ∧
    occurrencesOf ("INDEX " ++ "idx")
      (AddIndex testSpec "idx" "UNIQUE INDEX" "" ["c1"]).recv.alter = 1 :=
  ⟨by decide, by decide, by decide, by decide,
    (AddIndex_one_column_list testSpec "idx_body" "FULLTEXT" "" ["body"] (by decide)).2.2.2
      (by decide) (by decide),
    by decide,
    (AddIndex_one_column_list testSpec "idx" "UNIQUE INDEX" "" ["c1"] (by decide)).2.2.2
      (by decide) (by decide)⟩

end GhOstOrm
